import Mathlib

/-!
Verification development for the ModbusSniffer repository.

The definitions below are a shallow embedding of the Python sources
`src/modbus_sniffer.py` and `src/module/modbus_parser.py` (whose frame
decoding logic is line-for-line identical).  Bytes are modelled as `Nat`
(a `bytearray` becomes `List Nat` whose members are `< 256`), the decode
`while True:` loop becomes a fuel-indexed structural recursion (with the
fuel shown sufficient), ambient wall-clock values (timestamps, the current
calendar day) become explicit parameters, and side effects (log lines,
CSV writes) become an explicit event list.
-/

set_option maxRecDepth 8192

namespace ModbusSniffer

/-! ## CRC engine (`calcCRC16` from both source files)

The source computes the checksum with the classic two-table algorithm:
`crcHi`/`crcLo` start at `0xFF`, and for each input byte
`crc = crcHi ^ data[index]`, `crcHi = crcLo ^ crcHiTable[crc]`,
`crcLo = crcLoTable[crc]`; the result is `crcHi * 0x100 + crcLo`. -/

/-- Table `crcHiTable` copied from the source. -/
def crcHiTable : List Nat :=
  [ 0x00, 0xC1, 0x81, 0x40, 0x01, 0xC0, 0x80, 0x41, 0x01, 0xC0,
    0x80, 0x41, 0x00, 0xC1, 0x81, 0x40, 0x01, 0xC0, 0x80, 0x41,
    0x00, 0xC1, 0x81, 0x40, 0x00, 0xC1, 0x81, 0x40, 0x01, 0xC0,
    0x80, 0x41, 0x01, 0xC0, 0x80, 0x41, 0x00, 0xC1, 0x81, 0x40,
    0x00, 0xC1, 0x81, 0x40, 0x01, 0xC0, 0x80, 0x41, 0x00, 0xC1,
    0x81, 0x40, 0x01, 0xC0, 0x80, 0x41, 0x01, 0xC0, 0x80, 0x41,
    0x00, 0xC1, 0x81, 0x40, 0x01, 0xC0, 0x80, 0x41, 0x00, 0xC1,
    0x81, 0x40, 0x00, 0xC1, 0x81, 0x40, 0x01, 0xC0, 0x80, 0x41,
    0x00, 0xC1, 0x81, 0x40, 0x01, 0xC0, 0x80, 0x41, 0x01, 0xC0,
    0x80, 0x41, 0x00, 0xC1, 0x81, 0x40, 0x00, 0xC1, 0x81, 0x40,
    0x01, 0xC0, 0x80, 0x41, 0x01, 0xC0, 0x80, 0x41, 0x00, 0xC1,
    0x81, 0x40, 0x01, 0xC0, 0x80, 0x41, 0x00, 0xC1, 0x81, 0x40,
    0x00, 0xC1, 0x81, 0x40, 0x01, 0xC0, 0x80, 0x41, 0x01, 0xC0,
    0x80, 0x41, 0x00, 0xC1, 0x81, 0x40, 0x00, 0xC1, 0x81, 0x40,
    0x01, 0xC0, 0x80, 0x41, 0x00, 0xC1, 0x81, 0x40, 0x01, 0xC0,
    0x80, 0x41, 0x01, 0xC0, 0x80, 0x41, 0x00, 0xC1, 0x81, 0x40,
    0x00, 0xC1, 0x81, 0x40, 0x01, 0xC0, 0x80, 0x41, 0x01, 0xC0,
    0x80, 0x41, 0x00, 0xC1, 0x81, 0x40, 0x01, 0xC0, 0x80, 0x41,
    0x00, 0xC1, 0x81, 0x40, 0x00, 0xC1, 0x81, 0x40, 0x01, 0xC0,
    0x80, 0x41, 0x00, 0xC1, 0x81, 0x40, 0x01, 0xC0, 0x80, 0x41,
    0x01, 0xC0, 0x80, 0x41, 0x00, 0xC1, 0x81, 0x40, 0x01, 0xC0,
    0x80, 0x41, 0x00, 0xC1, 0x81, 0x40, 0x00, 0xC1, 0x81, 0x40,
    0x01, 0xC0, 0x80, 0x41, 0x01, 0xC0, 0x80, 0x41, 0x00, 0xC1,
    0x81, 0x40, 0x00, 0xC1, 0x81, 0x40, 0x01, 0xC0, 0x80, 0x41,
    0x00, 0xC1, 0x81, 0x40, 0x01, 0xC0, 0x80, 0x41, 0x01, 0xC0,
    0x80, 0x41, 0x00, 0xC1, 0x81, 0x40]

/-- Table `crcLoTable` copied from the source. -/
def crcLoTable : List Nat :=
  [ 0x00, 0xC0, 0xC1, 0x01, 0xC3, 0x03, 0x02, 0xC2, 0xC6, 0x06,
    0x07, 0xC7, 0x05, 0xC5, 0xC4, 0x04, 0xCC, 0x0C, 0x0D, 0xCD,
    0x0F, 0xCF, 0xCE, 0x0E, 0x0A, 0xCA, 0xCB, 0x0B, 0xC9, 0x09,
    0x08, 0xC8, 0xD8, 0x18, 0x19, 0xD9, 0x1B, 0xDB, 0xDA, 0x1A,
    0x1E, 0xDE, 0xDF, 0x1F, 0xDD, 0x1D, 0x1C, 0xDC, 0x14, 0xD4,
    0xD5, 0x15, 0xD7, 0x17, 0x16, 0xD6, 0xD2, 0x12, 0x13, 0xD3,
    0x11, 0xD1, 0xD0, 0x10, 0xF0, 0x30, 0x31, 0xF1, 0x33, 0xF3,
    0xF2, 0x32, 0x36, 0xF6, 0xF7, 0x37, 0xF5, 0x35, 0x34, 0xF4,
    0x3C, 0xFC, 0xFD, 0x3D, 0xFF, 0x3F, 0x3E, 0xFE, 0xFA, 0x3A,
    0x3B, 0xFB, 0x39, 0xF9, 0xF8, 0x38, 0x28, 0xE8, 0xE9, 0x29,
    0xEB, 0x2B, 0x2A, 0xEA, 0xEE, 0x2E, 0x2F, 0xEF, 0x2D, 0xED,
    0xEC, 0x2C, 0xE4, 0x24, 0x25, 0xE5, 0x27, 0xE7, 0xE6, 0x26,
    0x22, 0xE2, 0xE3, 0x23, 0xE1, 0x21, 0x20, 0xE0, 0xA0, 0x60,
    0x61, 0xA1, 0x63, 0xA3, 0xA2, 0x62, 0x66, 0xA6, 0xA7, 0x67,
    0xA5, 0x65, 0x64, 0xA4, 0x6C, 0xAC, 0xAD, 0x6D, 0xAF, 0x6F,
    0x6E, 0xAE, 0xAA, 0x6A, 0x6B, 0xAB, 0x69, 0xA9, 0xA8, 0x68,
    0x78, 0xB8, 0xB9, 0x79, 0xBB, 0x7B, 0x7A, 0xBA, 0xBE, 0x7E,
    0x7F, 0xBF, 0x7D, 0xBD, 0xBC, 0x7C, 0xB4, 0x74, 0x75, 0xB5,
    0x77, 0xB7, 0xB6, 0x76, 0x72, 0xB2, 0xB3, 0x73, 0xB1, 0x71,
    0x70, 0xB0, 0x50, 0x90, 0x91, 0x51, 0x93, 0x53, 0x52, 0x92,
    0x96, 0x56, 0x57, 0x97, 0x55, 0x95, 0x94, 0x54, 0x9C, 0x5C,
    0x5D, 0x9D, 0x5F, 0x9F, 0x9E, 0x5E, 0x5A, 0x9A, 0x9B, 0x5B,
    0x99, 0x59, 0x58, 0x98, 0x88, 0x48, 0x49, 0x89, 0x4B, 0x8B,
    0x8A, 0x4A, 0x4E, 0x8E, 0x8F, 0x4F, 0x8D, 0x4D, 0x4C, 0x8C,
    0x44, 0x84, 0x85, 0x45, 0x87, 0x47, 0x46, 0x86, 0x82, 0x42,
    0x43, 0x83, 0x41, 0x81, 0x80, 0x40]

/-- One iteration of the source's `while index < size` loop: the state is
the pair `(crcHi, crcLo)` and `b` is `data[index]`. -/
def crcRound (hl : Nat × Nat) (b : Nat) : Nat × Nat :=
  let crc := hl.1 ^^^ b
  (hl.2 ^^^ crcHiTable.getD crc 0, crcLoTable.getD crc 0)

/-- `calcCRC16(data, size)` from the source: runs `crcRound` over
`data[0] .. data[size-1]` starting from `(0xFF, 0xFF)` and returns
`crcHi * 0x100 + crcLo`. -/
def calcCRC16 (data : List Nat) (size : Nat) : Nat :=
  let hl := (data.take size).foldl crcRound (0xFF, 0xFF)
  hl.1 * 0x100 + hl.2

/-! ### Bit-level reference CRC

The Modbus RTU checksum as the spec describes it: shift register
initialised to `0xFFFF`, reflected polynomial `0xA001`, each input byte
xor-ed into the low byte followed by eight shift steps, no final xor. -/

/-- One shift step of the reflected CRC-16 register with polynomial
`0xA001`. -/
def crcBitStep (v : Nat) : Nat :=
  if v % 2 = 1 then v / 2 ^^^ 0xA001 else v / 2

/-- Process one byte: xor it into the register and shift eight times. -/
def crcByteRef (v b : Nat) : Nat :=
  crcBitStep^[8] (v ^^^ b)

/-- The bit-level Modbus RTU CRC-16 of a byte list (specification-side
definition, written from the spec's description of the algorithm). -/
def crcRef (bytes : List Nat) : Nat :=
  bytes.foldl crcByteRef 0xFFFF

/-! ## Frame decoder (`decodeModbus` from both source files)

Each function-code branch of the source's `while True:` loop is embedded
as one function on the buffer with the frame start at index 0 (the source
re-slices the buffer after every consumed frame or noise byte, so
`frameStartIndex` is 0 at the top of every iteration).  A branch returns
the accepted frame (if any), the number of consumed bytes (the final
`bufferIndex`), and the `needMoreData` flag; the flag accumulates across
the request/response/exception attempts exactly as the single Python
variable does. -/

/-- Big-endian 16-bit read `modbusdata[i] * 0x0100 + modbusdata[i+1]`. -/
def be16 (d : List Nat) (i : Nat) : Nat :=
  d.getD i 0 * 0x100 + d.getD (i + 1) 0

/-- Classification of an accepted frame: the source's `request` /
`responce` / `error` flags. -/
inductive MsgType where
  | request
  | response
  | error
  deriving DecidableEq, Repr

/-- The local variables the source fills in while parsing one frame. -/
structure Frame where
  unitIdentifier : Nat := 0
  functionCode : Nat := 0
  readAddress : Nat := 0
  readQuantity : Nat := 0
  readByteCount : Nat := 0
  readData : List Nat := []
  writeAddress : Nat := 0
  writeQuantity : Nat := 0
  writeByteCount : Nat := 0
  writeData : List Nat := []
  exceptionCode : Nat := 0
  mtype : MsgType
  deriving DecidableEq, Repr

/-- Result of one loop iteration's parsing attempt. -/
structure StepRes where
  frame : Option Frame := none
  consumed : Nat := 0
  needMore : Bool := false
  deriving DecidableEq, Repr

/-- FC01/FC02 and FC03/FC04 response layout:
`id, fc, count(1), data(count), crc(2)`. -/
def stepReadResp (u fc : Nat) (d : List Nat) (nm : Bool) : StepRes :=
  if 7 ≤ d.length then
    let bc := d.getD 2 0
    if 5 + bc ≤ d.length then
      if be16 d (3 + bc) = calcCRC16 d (3 + bc) then
        { frame := some { unitIdentifier := u, functionCode := fc,
                          readByteCount := bc, readData := (d.drop 3).take bc,
                          mtype := .response },
          consumed := 5 + bc, needMore := nm }
      else { needMore := nm }
    else { needMore := true }
  else { needMore := true }

/-- FC01/FC02 and FC03/FC04 branches (their parsing code is textually
identical): request layout `id, fc, addr(2), qty(2), crc(2)` tried first,
then the response layout. -/
def stepRead (u fc : Nat) (d : List Nat) : StepRes :=
  if 8 ≤ d.length then
    if be16 d 6 = calcCRC16 d 6 then
      { frame := some { unitIdentifier := u, functionCode := fc,
                        readAddress := be16 d 2, readQuantity := be16 d 4,
                        mtype := .request },
        consumed := 8, needMore := false }
    else stepReadResp u fc d false
  else stepReadResp u fc d true

/-- FC05 response layout: `id, fc, addr(2), crc(2)`. -/
def stepWriteSingleCoilResp (u : Nat) (d : List Nat) (nm : Bool) : StepRes :=
  if 6 ≤ d.length then
    if be16 d 4 = calcCRC16 d 4 then
      { frame := some { unitIdentifier := u, functionCode := 5,
                        writeAddress := be16 d 2, mtype := .response },
        consumed := 6, needMore := nm }
    else { needMore := nm }
  else { needMore := true }

/-- FC05 branch: request layout `id, fc, addr(2), value(2), crc(2)`. -/
def stepWriteSingleCoil (u : Nat) (d : List Nat) : StepRes :=
  if 8 ≤ d.length then
    if be16 d 6 = calcCRC16 d 6 then
      { frame := some { unitIdentifier := u, functionCode := 5,
                        writeAddress := be16 d 2,
                        writeData := [d.getD 4 0, d.getD 5 0],
                        mtype := .request },
        consumed := 8, needMore := false }
    else stepWriteSingleCoilResp u d false
  else stepWriteSingleCoilResp u d true

/-- FC06 response layout: `id, fc, addr(2), value(2), crc(2)`. -/
def stepWriteSingleRegisterResp (u : Nat) (d : List Nat) (nm : Bool) : StepRes :=
  if 8 ≤ d.length then
    if be16 d 6 = calcCRC16 d 6 then
      { frame := some { unitIdentifier := u, functionCode := 6,
                        writeAddress := be16 d 2,
                        writeData := [d.getD 4 0, d.getD 5 0],
                        mtype := .response },
        consumed := 8, needMore := nm }
    else { needMore := nm }
  else { needMore := true }

/-- FC06 branch: request layout `id, fc, addr(2), value(2), crc(2)`. -/
def stepWriteSingleRegister (u : Nat) (d : List Nat) : StepRes :=
  if 8 ≤ d.length then
    if be16 d 6 = calcCRC16 d 6 then
      { frame := some { unitIdentifier := u, functionCode := 6,
                        writeAddress := be16 d 2,
                        writeData := [d.getD 4 0, d.getD 5 0],
                        mtype := .request },
        consumed := 8, needMore := false }
    else stepWriteSingleRegisterResp u d false
  else stepWriteSingleRegisterResp u d true

/-- FC15 response layout: `id, fc, addr(2), qty(2), crc(2)`. -/
def stepWriteMultipleCoilsResp (u : Nat) (d : List Nat) (nm : Bool) : StepRes :=
  if 8 ≤ d.length then
    if be16 d 6 = calcCRC16 d 6 then
      { frame := some { unitIdentifier := u, functionCode := 15,
                        writeAddress := be16 d 2, writeQuantity := be16 d 4,
                        mtype := .response },
        consumed := 8, needMore := nm }
    else { needMore := nm }
  else { needMore := true }

/-- FC15 branch: request layout
`id, fc, addr(2), qty(2), count(1), data(count), crc(2)`, with the
source's initial minimum length 10 (`# n >= 1`). -/
def stepWriteMultipleCoils (u : Nat) (d : List Nat) : StepRes :=
  if 10 ≤ d.length then
    let wbc := d.getD 6 0
    if 9 + wbc ≤ d.length then
      if be16 d (7 + wbc) = calcCRC16 d (7 + wbc) then
        { frame := some { unitIdentifier := u, functionCode := 15,
                          writeAddress := be16 d 2, writeQuantity := be16 d 4,
                          writeByteCount := wbc,
                          writeData := (d.drop 7).take wbc,
                          mtype := .request },
          consumed := 9 + wbc, needMore := false }
      else stepWriteMultipleCoilsResp u d false
    else stepWriteMultipleCoilsResp u d true
  else stepWriteMultipleCoilsResp u d true

/-- Exception layout `id, fc, exc(1), crc(2)`: used by the `fc >= 0x80`
branch and by the FC16 branch's exception fallback. -/
def stepException (u fc : Nat) (d : List Nat) (nm : Bool) : StepRes :=
  if 5 ≤ d.length then
    if be16 d 3 = calcCRC16 d 3 then
      { frame := some { unitIdentifier := u, functionCode := fc,
                        exceptionCode := d.getD 2 0, mtype := .error },
        consumed := 5, needMore := nm }
    else { needMore := nm }
  else { needMore := true }

/-- FC16 response layout `id, fc, addr(2), qty(2), crc(2)`, falling back
to the exception layout when it does not validate (this fallback exists
only in the FC16 branch of the source). -/
def stepWriteMultipleRegistersResp (u : Nat) (d : List Nat) (nm : Bool) : StepRes :=
  if 8 ≤ d.length then
    if be16 d 6 = calcCRC16 d 6 then
      { frame := some { unitIdentifier := u, functionCode := 16,
                        writeAddress := be16 d 2, writeQuantity := be16 d 4,
                        mtype := .response },
        consumed := 8, needMore := nm }
    else stepException u 16 d nm
  else stepException u 16 d true

/-- FC16 branch: request layout
`id, fc, addr(2), qty(2), count(1), data(count), crc(2)`, with the
source's initial minimum length 11 (`# n >= 2`). -/
def stepWriteMultipleRegisters (u : Nat) (d : List Nat) : StepRes :=
  if 11 ≤ d.length then
    let wbc := d.getD 6 0
    if 9 + wbc ≤ d.length then
      if be16 d (7 + wbc) = calcCRC16 d (7 + wbc) then
        { frame := some { unitIdentifier := u, functionCode := 16,
                          writeAddress := be16 d 2, writeQuantity := be16 d 4,
                          writeByteCount := wbc,
                          writeData := (d.drop 7).take wbc,
                          mtype := .request },
          consumed := 9 + wbc, needMore := false }
      else stepWriteMultipleRegistersResp u d false
    else stepWriteMultipleRegistersResp u d true
  else stepWriteMultipleRegistersResp u d true

/-- FC23 response layout: `id, fc, count(1), data(count), crc(2)`. -/
def stepReadWriteMultipleResp (u : Nat) (d : List Nat) (nm : Bool) : StepRes :=
  if 7 ≤ d.length then
    let rbc := d.getD 2 0
    if 5 + rbc ≤ d.length then
      if be16 d (3 + rbc) = calcCRC16 d (3 + rbc) then
        { frame := some { unitIdentifier := u, functionCode := 23,
                          readByteCount := rbc, readData := (d.drop 3).take rbc,
                          mtype := .response },
          consumed := 5 + rbc, needMore := nm }
      else { needMore := nm }
    else { needMore := true }
  else { needMore := true }

/-- FC23 branch: request layout
`id, fc, raddr(2), rqty(2), waddr(2), wqty(2), wcount(1), wdata(wcount),
crc(2)`, with the source's initial minimum length 15 (`# n >= 2`). -/
def stepReadWriteMultiple (u : Nat) (d : List Nat) : StepRes :=
  if 15 ≤ d.length then
    let wbc := d.getD 10 0
    if 13 + wbc ≤ d.length then
      if be16 d (11 + wbc) = calcCRC16 d (11 + wbc) then
        { frame := some { unitIdentifier := u, functionCode := 23,
                          readAddress := be16 d 2, readQuantity := be16 d 4,
                          writeAddress := be16 d 6, writeQuantity := be16 d 8,
                          writeByteCount := wbc,
                          writeData := (d.drop 11).take wbc,
                          mtype := .request },
          consumed := 13 + wbc, needMore := false }
      else stepReadWriteMultipleResp u d false
    else stepReadWriteMultipleResp u d true
  else stepReadWriteMultipleResp u d true

/-- Dispatch on the function code, mirroring the `elif` chain of the
source.  A function code with no branch (below 0x80 and unsupported)
leaves all flags clear, which the loop turns into one byte of noise. -/
def decodeDispatch (u fc : Nat) (d : List Nat) : StepRes :=
  if fc = 1 ∨ fc = 2 then stepRead u fc d
  else if fc = 3 ∨ fc = 4 then stepRead u fc d
  else if fc = 5 then stepWriteSingleCoil u d
  else if fc = 6 then stepWriteSingleRegister u d
  else if fc = 15 then stepWriteMultipleCoils u d
  else if fc = 16 then stepWriteMultipleRegisters u d
  else if fc = 23 then stepReadWriteMultiple u d
  else if 0x80 ≤ fc then stepException u fc d false
  else {}

/-- One iteration of the decode loop: the source's
`if len(modbusdata) > (frameStartIndex + 2):` guard, then the dispatch. -/
def decodeStep (d : List Nat) : StepRes :=
  if 2 < d.length then decodeDispatch (d.getD 0 0) (d.getD 1 0) d
  else { needMore := true }

/-! ## Decode loop with state and effects

The surrounding object state (`trashdata`/`trashdataf` noise run,
`pendingRequests`) becomes an explicit record; log lines for noise runs
and calls into the CSV logger become events.  Timestamps (ambient
`datetime.now()`) are omitted from the pending-request values. -/

/-- `int.from_bytes(bytes, byteorder="big")`. -/
def intFromBytesBE (bytes : List Nat) : Nat :=
  bytes.foldl (fun a b => a * 256 + b) 0

/-- The source's `[int.from_bytes(data[i:i+2], byteorder='big') for i in
range(0, len(data), 2)]`: split into big-endian 16-bit register values
(a trailing odd byte becomes its own value, as a 1-byte slice does). -/
def registerValuesOf : List Nat → List Nat
  | [] => []
  | [b] => [b]
  | b1 :: b2 :: rest => (b1 * 256 + b2) :: registerValuesOf rest

/-- Observable effects of the decode loop. -/
inductive Event where
  | frame (f : Frame)
  | noise (bytes : List Nat)
  | csvWrite (slaveId : Nat) (operation : String) (startRegister : Nat)
      (quantity : Nat) (registerValues : List Nat)
  deriving DecidableEq, Repr

/-- The decoder-owned mutable state of `SerialSnooper` / `ModbusParser`. -/
structure SnifferState where
  trashdata : Bool := false
  trashdataf : List Nat := []
  pendingRequests : List ((Nat × Nat) × (Nat × Nat)) := []
  deriving DecidableEq, Repr

/-- Fresh state, as set up in the constructors. -/
def initState : SnifferState := {}

/-- `self.pendingRequests[key] = value` (dict assignment overwrites). -/
def pendingSet (m : List ((Nat × Nat) × (Nat × Nat))) (k : Nat × Nat)
    (v : Nat × Nat) : List ((Nat × Nat) × (Nat × Nat)) :=
  (k, v) :: m.filter (fun e => e.1 != k)

/-- Lookup of `self.pendingRequests.pop(key, None)`'s returned value. -/
def pendingGet (m : List ((Nat × Nat) × (Nat × Nat))) (k : Nat × Nat) :
    Option (Nat × Nat) :=
  (m.find? (fun e => e.1 == k)).map (fun e => e.2)

/-- Removal performed by `self.pendingRequests.pop(key, None)`. -/
def pendingPop (m : List ((Nat × Nat) × (Nat × Nat))) (k : Nat × Nat) :
    List ((Nat × Nat) × (Nat × Nat)) :=
  m.filter (fun e => e.1 != k)

/-- The `if self.trashdata:` block run on every frame acceptance: flush
the accumulated noise run as one log line and close it. -/
def flushTrash (st : SnifferState) : SnifferState × List Event :=
  if st.trashdata then
    ({ st with trashdata := false, trashdataf := [] }, [Event.noise st.trashdataf])
  else (st, [])

/-- Branch-specific side effects attached to an accepted frame: the
FC03/FC04 request stores into `pendingRequests`; the FC03/FC04 response
pops it and, when present, calls `csv_logger.log_data(…, "READ", startReg,
len(register_values), register_values)`; the FC06 and FC16 requests call
`csv_logger.log_data(…, "WRITE", …)`. -/
def frameEffects (st : SnifferState) (f : Frame) : SnifferState × List Event :=
  match f.mtype with
  | .request =>
    if f.functionCode = 3 ∨ f.functionCode = 4 then
      ({ st with pendingRequests :=
          (pendingSet st.pendingRequests (f.unitIdentifier, f.functionCode)
            (f.readAddress, f.readQuantity)) }, [])
    else if f.functionCode = 6 then
      (st, [Event.csvWrite f.unitIdentifier "WRITE" f.writeAddress 1
              [intFromBytesBE f.writeData]])
    else if f.functionCode = 16 then
      (st, [Event.csvWrite f.unitIdentifier "WRITE" f.writeAddress
              f.writeQuantity (registerValuesOf f.writeData)])
    else (st, [])
  | .response =>
    if f.functionCode = 3 ∨ f.functionCode = 4 then
      match pendingGet st.pendingRequests (f.unitIdentifier, f.functionCode) with
      | some pr =>
        ({ st with pendingRequests :=
            (pendingPop st.pendingRequests (f.unitIdentifier, f.functionCode)) },
         [Event.csvWrite f.unitIdentifier "READ" pr.1
            (registerValuesOf f.readData).length (registerValuesOf f.readData)])
      | none => (st, [])
    else (st, [])
  | .error => (st, [])

/-- The noise-branch state update: append the leading byte to the open
noise run, or start a new run with it. -/
def pushTrashByte (st : SnifferState) (b : Nat) : SnifferState :=
  if st.trashdata then { st with trashdataf := st.trashdataf ++ [b] }
  else { st with trashdata := true, trashdataf := [b] }

/-- The `while True:` loop, indexed by fuel (shown sufficient below).
On acceptance: flush the noise run, emit the frame, apply its effects,
drop the consumed bytes, and return if `needMoreData` was set, else
continue.  On `needMoreData` with nothing accepted: return the buffer.
Otherwise: treat the leading byte as noise, drop it, and continue. -/
def decodeLoop : Nat → SnifferState → List Nat →
    SnifferState × List Nat × List Event
  | 0, st, d => (st, d, [])
  | fuel + 1, st, d =>
    let r := decodeStep d
    match r.frame with
    | some f =>
      let fl := flushTrash st
      let eff := frameEffects fl.1 f
      let rest := d.drop r.consumed
      if r.needMore then (eff.1, rest, fl.2 ++ [Event.frame f] ++ eff.2)
      else
        let next := decodeLoop fuel eff.1 rest
        (next.1, next.2.1, fl.2 ++ [Event.frame f] ++ eff.2 ++ next.2.2)
    | none =>
      if r.needMore then (st, d, [])
      else decodeLoop fuel (pushTrashByte st (d.getD 0 0)) (d.drop 1)

/-- `decodeModbus(self, data)`: run the loop with enough fuel (one unit
per iteration; every non-returning iteration consumes at least one byte,
so `data.length + 1` units always suffice — see `decodeLoop_fuel`). -/
def decodeModbus (st : SnifferState) (data : List Nat) :
    SnifferState × List Nat × List Event :=
  decodeLoop (data.length + 1) st data

/-! ## CSV logger (`CSVLogger` from `src/modbus_sniffer.py`)

The file on disk is modelled as the list of its rows (each row a list of
cell strings, the header first); the open file handle, `csv.writer` and
flushing are I/O plumbing with no observable content.  The ambient
current date (`datetime.now()`) becomes an explicit argument of
`log_data`; the filename (which embeds a timestamp) is not modelled. -/

/-- State of a `CSVLogger` instance plus the current file's contents. -/
structure CSVLogger where
  enableCsv : Bool
  dailyFile : Bool
  columns : List String
  registerMap : List ((Nat × Nat) × Nat)
  fileRows : List (List String)
  currentDateStr : String
  deriving DecidableEq, Repr

/-- The three fixed leading columns. -/
def fixedColumns : List String := ["Timestamp", "Slave ID", "Operation"]

/-- `_open_csv_file`: start a new file whose only line is the current
header, and remember the rotation key when rotating daily. -/
def openCsvFile (st : CSVLogger) (date : String) : CSVLogger :=
  { st with fileRows := [st.columns],
            currentDateStr := if st.dailyFile then date else st.currentDateStr }

/-- `CSVLogger.__init__`. -/
def CSVLogger.init (enableCsv dailyFile : Bool) (date : String) : CSVLogger :=
  let base : CSVLogger :=
    { enableCsv := enableCsv, dailyFile := dailyFile,
      columns := fixedColumns, registerMap := [], fileRows := [],
      currentDateStr := "" }
  if enableCsv then openCsvFile base date else base

/-- `_check_daily_rotation`. -/
def checkDailyRotation (st : CSVLogger) (date : String) : CSVLogger :=
  if st.dailyFile then
    if date ≠ st.currentDateStr then openCsvFile st date else st
  else st

/-- Remap one previously written row onto the expanded column list
(`_rewrite_file_with_new_header`, steps 5 and 6). -/
def remapRow (oldHeader newCols : List String) (oldRow : List String) :
    List String :=
  (List.range oldHeader.length).foldl
    (fun acc i =>
      let colName := oldHeader.getD i ""
      let cell := if i < oldRow.length then oldRow.getD i "" else ""
      if colName ∈ oldHeader then
        if colName ∈ newCols then acc.set (newCols.indexOf colName) cell
        else acc
      else acc)
    (List.replicate newCols.length "")

/-- `_rewrite_file_with_new_header`: write the updated header first, then
every old row remapped onto the new columns. -/
def rewriteFileWithNewHeader (st : CSVLogger) : CSVLogger :=
  let oldHeader := st.fileRows.headD []
  let oldRows := st.fileRows.tail
  { st with fileRows := st.columns :: oldRows.map (remapRow oldHeader st.columns) }

/-- One offset of `_expand_header_for_registers`' loop: append a column
for `(slave_id, reg_addr)` unless it is already mapped. -/
def expandOne (slaveId : Nat) (acc : CSVLogger × Bool) (regAddr : Nat) :
    CSVLogger × Bool :=
  let st := acc.1
  if (st.registerMap.find? (fun e => e.1 == (slaveId, regAddr))).isSome then acc
  else
    let newColName := "Reg_" ++ toString slaveId ++ "_" ++ toString regAddr
    ({ st with columns := st.columns ++ [newColName],
               registerMap := st.registerMap ++ [((slaveId, regAddr), st.columns.length)] },
     true)

/-- `_expand_header_for_registers`: ensure a column per register in
`[start_register, start_register + quantity)`, rewriting the file when
any was added. -/
def expandHeaderForRegisters (st : CSVLogger) (slaveId startRegister quantity : Nat) :
    CSVLogger :=
  let res := (List.range quantity).foldl
    (fun acc offset => expandOne slaveId acc (startRegister + offset)) (st, false)
  if res.2 then rewriteFileWithNewHeader res.1 else res.1

/-- `log_data(timestamp, slave_id, operation, start_register, quantity,
register_values)`, with the ambient current date passed explicitly. -/
def log_data (st : CSVLogger) (date timestamp : String) (slaveId : Nat)
    (operation : String) (startRegister quantity : Nat)
    (registerValues : List Nat) : CSVLogger :=
  if st.enableCsv = false then st
  else
    let st1 := checkDailyRotation st date
    let st2 := expandHeaderForRegisters st1 slaveId startRegister quantity
    let base := ((List.replicate st2.columns.length "").set 0 timestamp).set 1
        (toString slaveId) |>.set 2 operation
    let row := registerValues.enum.foldl
      (fun acc iv =>
        match (st2.registerMap.find? (fun e => e.1 == (slaveId, startRegister + iv.1))) with
        | some e => acc.set e.2 (toString iv.2)
        | none => acc)
      base
    { st2 with fileRows := st2.fileRows ++ [row] }

/-- One `log_data` call with its ambient date, for folding sequences of
calls. -/
structure LogCall where
  date : String
  timestamp : String
  slaveId : Nat
  operation : String
  startRegister : Nat
  quantity : Nat
  registerValues : List Nat

/-- Apply one recorded call. -/
def applyLogCall (st : CSVLogger) (c : LogCall) : CSVLogger :=
  log_data st c.date c.timestamp c.slaveId c.operation c.startRegister
    c.quantity c.registerValues

/-! ## Derived predicates and frame builders used by the specification -/

/-- A buffer whose current iteration accepts nothing and does not ask
for more data: the loop will treat its leading byte as noise. -/
def isNoiseStep (d : List Nat) : Prop :=
  (decodeStep d).frame = none ∧ (decodeStep d).needMore = false

instance (d : List Nat) : Decidable (isNoiseStep d) := by
  unfold isNoiseStep
  infer_instance

/-- Append a frame body's CRC in the source's wire order: the byte
compared at the lower index first (`calcCRC16 / 256`), then the byte at
the higher index (`calcCRC16 % 256`). -/
def withCRC (body : List Nat) : List Nat :=
  body ++ [calcCRC16 body body.length / 256, calcCRC16 body body.length % 256]

/-- Request frame for FC01/02/03/04: `id, fc, addr(2), qty(2), crc(2)`. -/
def encodeReadRequest (u fc addr qty : Nat) : List Nat :=
  withCRC [u, fc, addr / 256, addr % 256, qty / 256, qty % 256]

/-- Request frame for FC05/06: `id, fc, addr(2), value(2), crc(2)`. -/
def encodeWriteSingleRequest (u fc addr v1 v2 : Nat) : List Nat :=
  withCRC [u, fc, addr / 256, addr % 256, v1, v2]

/-- Request frame for FC15/16:
`id, fc, addr(2), qty(2), count(1), data(count), crc(2)`. -/
def encodeWriteMultipleRequest (u fc addr qty : Nat) (data : List Nat) : List Nat :=
  withCRC ([u, fc, addr / 256, addr % 256, qty / 256, qty % 256, data.length] ++ data)

/-- Request frame for FC23: `id, fc, raddr(2), rqty(2), waddr(2),
wqty(2), wcount(1), wdata(wcount), crc(2)`. -/
def encodeReadWriteRequest (u raddr rqty waddr wqty : Nat) (data : List Nat) : List Nat :=
  withCRC ([u, 23, raddr / 256, raddr % 256, rqty / 256, rqty % 256,
            waddr / 256, waddr % 256, wqty / 256, wqty % 256, data.length] ++ data)

/-- Response frame for FC01/02/03/04: `id, fc, count(1), data(count), crc(2)`. -/
def encodeReadResponse (u fc : Nat) (data : List Nat) : List Nat :=
  withCRC ([u, fc, data.length] ++ data)

/-- The request-layout interpretation of the leading bytes validates:
the buffer meets the code's initial minimum length for the function
code's request form, covers the full byte-count-dependent length, and
the CRC over the request body matches the two following bytes.  Derived
from the length and CRC checks of the request arm of each branch. -/
def requestLayoutValid (d : List Nat) : Bool :=
  let fc := d.getD 1 0
  if fc = 1 ∨ fc = 2 ∨ fc = 3 ∨ fc = 4 ∨ fc = 5 ∨ fc = 6 then
    decide (8 ≤ d.length) && decide (be16 d 6 = calcCRC16 d 6)
  else if fc = 15 then
    decide (10 ≤ d.length) && decide (9 + d.getD 6 0 ≤ d.length)
      && decide (be16 d (7 + d.getD 6 0) = calcCRC16 d (7 + d.getD 6 0))
  else if fc = 16 then
    decide (11 ≤ d.length) && decide (9 + d.getD 6 0 ≤ d.length)
      && decide (be16 d (7 + d.getD 6 0) = calcCRC16 d (7 + d.getD 6 0))
  else if fc = 23 then
    decide (15 ≤ d.length) && decide (13 + d.getD 10 0 ≤ d.length)
      && decide (be16 d (11 + d.getD 10 0) = calcCRC16 d (11 + d.getD 10 0))
  else false


/-- Fold a sequence of `log_data` calls from a freshly initialised
logger. -/
def runLog (enableCsv dailyFile : Bool) (date0 : String)
    (calls : List LogCall) : CSVLogger :=
  calls.foldl applyLogCall (CSVLogger.init enableCsv dailyFile date0)


/-- The file/schema consistency invariant maintained by `log_data`: the
three fixed columns lead the schema, and (when CSV logging is enabled)
the file starts with the current header and every row has exactly one
cell per current column. -/
def CSVInv (st : CSVLogger) : Prop :=
  st.columns.take 3 = fixedColumns ∧ 3 ≤ st.columns.length
  ∧ (st.enableCsv = true → st.fileRows ≠ []
      ∧ st.fileRows.headD [] = st.columns
      ∧ ∀ r ∈ st.fileRows, r.length = st.columns.length)

/-! ### CRC lemmas -/

theorem crcHiTable_length : crcHiTable.length = 256 := by decide

theorem crcLoTable_length : crcLoTable.length = 256 := by decide

theorem crcHiTable_lt (c : Nat) : crcHiTable.getD c 0 < 256 := by
  by_cases h : c < crcHiTable.length
  · have hmem : crcHiTable.getD c 0 ∈ crcHiTable := by
      rw [List.getD_eq_getElem _ _ h]
      exact List.getElem_mem h
    have hall : ∀ x ∈ crcHiTable, x < 256 := by decide
    exact hall _ hmem
  · rw [List.getD_eq_default _ _ (Nat.le_of_not_lt h)]
    decide

theorem crcLoTable_lt (c : Nat) : crcLoTable.getD c 0 < 256 := by
  by_cases h : c < crcLoTable.length
  · have hmem : crcLoTable.getD c 0 ∈ crcLoTable := by
      rw [List.getD_eq_getElem _ _ h]
      exact List.getElem_mem h
    have hall : ∀ x ∈ crcLoTable, x < 256 := by decide
    exact hall _ hmem
  · rw [List.getD_eq_default _ _ (Nat.le_of_not_lt h)]
    decide

theorem crcRound_lt (hl : Nat × Nat) (b : Nat) (h : hl.2 < 256) :
    (crcRound hl b).1 < 256 ∧ (crcRound hl b).2 < 256 := by
  unfold crcRound
  refine ⟨?_, crcLoTable_lt _⟩
  exact Nat.xor_lt_two_pow (n := 8) h (crcHiTable_lt _)

theorem crcFold_lt (bytes : List Nat) (hl : Nat × Nat)
    (h1 : hl.1 < 256) (h2 : hl.2 < 256) :
    (bytes.foldl crcRound hl).1 < 256 ∧ (bytes.foldl crcRound hl).2 < 256 := by
  induction bytes generalizing hl with
  | nil => exact ⟨h1, h2⟩
  | cons b rest ih =>
    have := crcRound_lt hl b h2
    exact ih _ this.1 this.2

/-- The value returned by `calcCRC16` always fits in 16 bits. -/
theorem calcCRC16_lt (data : List Nat) (size : Nat) :
    calcCRC16 data size < 65536 := by
  simp only [calcCRC16]
  have := crcFold_lt (data.take size) (0xFF, 0xFF) (by decide) (by decide)
  omega

/-- `calcCRC16` reads only the first `size` bytes. -/
theorem calcCRC16_take (data : List Nat) (size : Nat) :
    calcCRC16 data size = calcCRC16 (data.take size) size := by
  simp only [calcCRC16]
  rw [List.take_take, Nat.min_self]

/-- Appending bytes after the checked region does not change the CRC. -/
theorem calcCRC16_append (pre post : List Nat) (size : Nat)
    (h : size ≤ pre.length) :
    calcCRC16 (pre ++ post) size = calcCRC16 pre size := by
  simp only [calcCRC16]
  rw [List.take_append_of_le_length h]

/-! ### Table algorithm versus bit-level reference -/

theorem xor_mod_two (a b : Nat) :
    (a ^^^ b) % 2 = if a % 2 = b % 2 then 0 else 1 := by
  have h := Nat.xor_mod_two_eq_one (a := a) (b := b)
  have ha := Nat.mod_two_eq_zero_or_one a
  have hb := Nat.mod_two_eq_zero_or_one b
  have hx := Nat.mod_two_eq_zero_or_one (a ^^^ b)
  rcases ha with ha | ha <;> rcases hb with hb | hb <;>
    simp [ha, hb] at h ⊢ <;> omega

theorem xor_left_comm (a b c : Nat) : a ^^^ (b ^^^ c) = b ^^^ (a ^^^ c) := by
  rw [← Nat.xor_assoc, Nat.xor_comm a b, Nat.xor_assoc]

theorem crcBitStep_xor (a b : Nat) :
    crcBitStep (a ^^^ b) = crcBitStep a ^^^ crcBitStep b := by
  unfold crcBitStep
  have hm := xor_mod_two a b
  have hd := Nat.xor_div_two (a := a) (b := b)
  rcases Nat.mod_two_eq_zero_or_one a with ha | ha <;>
    rcases Nat.mod_two_eq_zero_or_one b with hb | hb <;>
    simp [ha, hb] at hm <;>
    simp [ha, hb, hm, hd, Nat.xor_assoc, Nat.xor_comm, xor_left_comm]

theorem crcBitStep_iter_xor (k a b : Nat) :
    crcBitStep^[k] (a ^^^ b) = crcBitStep^[k] a ^^^ crcBitStep^[k] b := by
  induction k generalizing a b with
  | zero => rfl
  | succ k ih =>
    rw [Function.iterate_succ_apply, Function.iterate_succ_apply,
      Function.iterate_succ_apply, crcBitStep_xor, ih]

theorem crcBitStep_even (m : Nat) : crcBitStep (2 * m) = m := by
  unfold crcBitStep
  have : 2 * m % 2 = 0 := by omega
  rw [if_neg (by omega)]
  omega

theorem crcBitStep_iter8_mul256 (lo : Nat) : crcBitStep^[8] (lo * 256) = lo := by
  have h : lo * 256 = 2 * (2 * (2 * (2 * (2 * (2 * (2 * (2 * lo))))))) := by ring
  rw [h]
  simp only [Function.iterate_succ_apply, Function.iterate_zero_apply, crcBitStep_even]

/-- Disjoint-bit recombination: a low byte xor-ed onto a value shifted
past it is just addition. -/
theorem xor_mul256_add (y x : Nat) (hx : x < 256) : y * 256 ^^^ x = y * 256 + x := by
  apply Nat.eq_of_testBit_eq
  intro i
  have h256 : y * 256 = 2 ^ 8 * y := by ring
  have hx8 : x < 2 ^ 8 := by norm_num at hx ⊢; omega
  rw [Nat.testBit_xor, h256, Nat.testBit_mul_pow_two,
    Nat.testBit_mul_pow_two_add y hx8 i]
  rcases Nat.lt_or_ge i 8 with hi | hi
  · simp [hi, Nat.not_le_of_lt hi]
  · have h3 : Nat.testBit x i = false :=
      Nat.testBit_lt_two_pow (by
        calc x < 2 ^ 8 := hx8
          _ ≤ 2 ^ i := Nat.pow_le_pow_right (by norm_num) hi)
    simp [hi, Nat.not_lt_of_le hi, h3]

/-- Finite correspondence between eight reference shift steps and the two
source tables: checked for all 256 possible index bytes. -/
theorem crcTable_spec :
    ∀ i < 256, crcBitStep^[8] i = crcLoTable.getD i 0 * 256 + crcHiTable.getD i 0 := by
  decide

/-- One table round tracks one reference byte step, reading the pair
`(crcHi, crcLo)` as the 16-bit register value `crcLo * 256 + crcHi`. -/
theorem crcRound_ref (hi lo b : Nat) (hhi : hi < 256) (hlo : lo < 256)
    (hb : b < 256) :
    (crcRound (hi, lo) b).2 * 256 + (crcRound (hi, lo) b).1
      = crcByteRef (lo * 256 + hi) b := by
  have hj : hi ^^^ b < 256 := Nat.xor_lt_two_pow (n := 8) hhi hb
  have h1 : lo * 256 + hi ^^^ b = lo * 256 + (hi ^^^ b) := by
    rw [← xor_mul256_add lo hi hhi, Nat.xor_assoc, xor_mul256_add lo _ hj]
  unfold crcByteRef
  rw [h1, ← xor_mul256_add lo _ hj, crcBitStep_iter_xor, crcBitStep_iter8_mul256,
    crcTable_spec _ hj]
  have hHiT : crcHiTable.getD (hi ^^^ b) 0 < 256 := crcHiTable_lt _
  have hxlo : lo ^^^ crcHiTable.getD (hi ^^^ b) 0 < 256 :=
    Nat.xor_lt_two_pow (n := 8) hlo hHiT
  rw [← xor_mul256_add _ _ hHiT, xor_left_comm, xor_mul256_add _ _ hxlo]
  rfl

/-- The table fold tracks the reference fold over any byte list. -/
theorem crcFold_ref (bytes : List Nat) (hi lo : Nat) (hhi : hi < 256)
    (hlo : lo < 256) (hbytes : ∀ b ∈ bytes, b < 256) :
    (bytes.foldl crcRound (hi, lo)).2 * 256 + (bytes.foldl crcRound (hi, lo)).1
      = bytes.foldl crcByteRef (lo * 256 + hi) := by
  induction bytes generalizing hi lo with
  | nil => simp
  | cons b rest ih =>
    have hb : b < 256 := hbytes b (by simp)
    have hrest : ∀ x ∈ rest, x < 256 := fun x hx => hbytes x (by simp [hx])
    have hr := crcRound_lt (hi, lo) b hlo
    have step := crcRound_ref hi lo b hhi hlo hb
    simp only [List.foldl_cons]
    rcases hc : crcRound (hi, lo) b with ⟨hi', lo'⟩
    rw [hc] at hr step
    rw [ih hi' lo' hr.1 hr.2 hrest, step]

/-- C4: for every byte sequence and every size not exceeding its length,
`calcCRC16` depends only on the first `n` bytes and equals the bit-level
Modbus RTU CRC-16 of those bytes (reflected polynomial 0xA001, initial
register 0xFFFF, no final XOR) in byte-swapped representation: its value
is `(ref % 256) * 256 + ref / 256`, so the source's acceptance test
`t0 * 256 + t1 = calcCRC16 …` over the two trailing frame bytes succeeds
exactly when the frame carries the reference CRC low-order byte first
(`t0 = ref % 256`) and high-order byte second (`t1 = ref / 256`). -/
theorem calcCRC16_correct (data : List Nat) (n : Nat) (hn : n ≤ data.length)
    (hbytes : ∀ b ∈ data, b < 256) :
    calcCRC16 data n = calcCRC16 (data.take n) n
    ∧ calcCRC16 data n = crcRef (data.take n) % 256 * 256 + crcRef (data.take n) / 256
    ∧ (∀ t0 t1 : Nat, t0 < 256 → t1 < 256 →
        (t0 * 256 + t1 = calcCRC16 data n ↔
          t0 = crcRef (data.take n) % 256 ∧ t1 = crcRef (data.take n) / 256)) := by
  have hbT : ∀ b ∈ data.take n, b < 256 :=
    fun b hb => hbytes b (List.take_subset n data hb)
  have main := crcFold_ref (data.take n) 0xFF 0xFF (by decide) (by decide) hbT
  have bounds := crcFold_lt (data.take n) (0xFF, 0xFF) (by decide) (by decide)
  have hcalc : calcCRC16 data n
      = ((data.take n).foldl crcRound (0xFF, 0xFF)).1 * 256
        + ((data.take n).foldl crcRound (0xFF, 0xFF)).2 := rfl
  have hnum : (0xFF : Nat) * 256 + 0xFF = 0xFFFF := by norm_num
  have href : crcRef (data.take n)
      = ((data.take n).foldl crcRound (0xFF, 0xFF)).2 * 256
        + ((data.take n).foldl crcRound (0xFF, 0xFF)).1 := by
    rw [main, hnum]; rfl
  rcases bounds with ⟨hb1, hb2⟩
  refine ⟨calcCRC16_take data n, by omega, ?_⟩
  have hmod : crcRef (data.take n) % 256
      = ((data.take n).foldl crcRound (0xFF, 0xFF)).1 := by omega
  have hdiv : crcRef (data.take n) / 256
      = ((data.take n).foldl crcRound (0xFF, 0xFF)).2 := by omega
  intro t0 t1 ht0 ht1
  rw [hmod, hdiv, hcalc]
  constructor
  · intro h; omega
  · intro h; omega

/-- Witness: `calcCRC16_correct` applied to the 6-byte FC3 request body
`[1, 3, 0, 100, 0, 2]` with size 6. -/
theorem calcCRC16_correct_witness :
    calcCRC16 [1, 3, 0, 100, 0, 2] 6
        = calcCRC16 (([1, 3, 0, 100, 0, 2] : List Nat).take 6) 6
    ∧ calcCRC16 [1, 3, 0, 100, 0, 2] 6
        = crcRef (([1, 3, 0, 100, 0, 2] : List Nat).take 6) % 256 * 256
          + crcRef (([1, 3, 0, 100, 0, 2] : List Nat).take 6) / 256
    ∧ (∀ t0 t1 : Nat, t0 < 256 → t1 < 256 →
        (t0 * 256 + t1 = calcCRC16 [1, 3, 0, 100, 0, 2] 6 ↔
          t0 = crcRef (([1, 3, 0, 100, 0, 2] : List Nat).take 6) % 256
          ∧ t1 = crcRef (([1, 3, 0, 100, 0, 2] : List Nat).take 6) / 256)) :=
  calcCRC16_correct [1, 3, 0, 100, 0, 2] 6 (by decide) (by decide)


/-! ### Decode loop progress and termination -/

theorem stepReadResp_progress (u fc : Nat) (d : List Nat) (nm : Bool) :
    (stepReadResp u fc d nm).frame.isSome →
      1 ≤ (stepReadResp u fc d nm).consumed ∧
      (stepReadResp u fc d nm).consumed ≤ d.length := by
  simp only [stepReadResp]
  split_ifs <;> simp_all <;> omega

theorem stepRead_progress (u fc : Nat) (d : List Nat) :
    (stepRead u fc d).frame.isSome →
      1 ≤ (stepRead u fc d).consumed ∧ (stepRead u fc d).consumed ≤ d.length := by
  simp only [stepRead]
  split_ifs with h1 h2
  · simp_all <;> omega
  · exact stepReadResp_progress u fc d false
  · exact stepReadResp_progress u fc d true

theorem stepWriteSingleCoilResp_progress (u : Nat) (d : List Nat) (nm : Bool) :
    (stepWriteSingleCoilResp u d nm).frame.isSome →
      1 ≤ (stepWriteSingleCoilResp u d nm).consumed ∧
      (stepWriteSingleCoilResp u d nm).consumed ≤ d.length := by
  simp only [stepWriteSingleCoilResp]
  split_ifs <;> simp_all <;> omega

theorem stepWriteSingleCoil_progress (u : Nat) (d : List Nat) :
    (stepWriteSingleCoil u d).frame.isSome →
      1 ≤ (stepWriteSingleCoil u d).consumed ∧
      (stepWriteSingleCoil u d).consumed ≤ d.length := by
  simp only [stepWriteSingleCoil]
  split_ifs with h1 h2
  · simp_all <;> omega
  · exact stepWriteSingleCoilResp_progress u d false
  · exact stepWriteSingleCoilResp_progress u d true

theorem stepWriteSingleRegisterResp_progress (u : Nat) (d : List Nat) (nm : Bool) :
    (stepWriteSingleRegisterResp u d nm).frame.isSome →
      1 ≤ (stepWriteSingleRegisterResp u d nm).consumed ∧
      (stepWriteSingleRegisterResp u d nm).consumed ≤ d.length := by
  simp only [stepWriteSingleRegisterResp]
  split_ifs <;> simp_all <;> omega

theorem stepWriteSingleRegister_progress (u : Nat) (d : List Nat) :
    (stepWriteSingleRegister u d).frame.isSome →
      1 ≤ (stepWriteSingleRegister u d).consumed ∧
      (stepWriteSingleRegister u d).consumed ≤ d.length := by
  simp only [stepWriteSingleRegister]
  split_ifs with h1 h2
  · simp_all <;> omega
  · exact stepWriteSingleRegisterResp_progress u d false
  · exact stepWriteSingleRegisterResp_progress u d true

theorem stepWriteMultipleCoilsResp_progress (u : Nat) (d : List Nat) (nm : Bool) :
    (stepWriteMultipleCoilsResp u d nm).frame.isSome →
      1 ≤ (stepWriteMultipleCoilsResp u d nm).consumed ∧
      (stepWriteMultipleCoilsResp u d nm).consumed ≤ d.length := by
  simp only [stepWriteMultipleCoilsResp]
  split_ifs <;> simp_all <;> omega

theorem stepWriteMultipleCoils_progress (u : Nat) (d : List Nat) :
    (stepWriteMultipleCoils u d).frame.isSome →
      1 ≤ (stepWriteMultipleCoils u d).consumed ∧
      (stepWriteMultipleCoils u d).consumed ≤ d.length := by
  simp only [stepWriteMultipleCoils]
  split_ifs with h1 h2 h3
  · simp_all <;> omega
  · exact stepWriteMultipleCoilsResp_progress u d false
  · exact stepWriteMultipleCoilsResp_progress u d true
  · exact stepWriteMultipleCoilsResp_progress u d true

theorem stepException_progress (u fc : Nat) (d : List Nat) (nm : Bool) :
    (stepException u fc d nm).frame.isSome →
      1 ≤ (stepException u fc d nm).consumed ∧
      (stepException u fc d nm).consumed ≤ d.length := by
  simp only [stepException]
  split_ifs <;> simp_all <;> omega

theorem stepWriteMultipleRegistersResp_progress (u : Nat) (d : List Nat) (nm : Bool) :
    (stepWriteMultipleRegistersResp u d nm).frame.isSome →
      1 ≤ (stepWriteMultipleRegistersResp u d nm).consumed ∧
      (stepWriteMultipleRegistersResp u d nm).consumed ≤ d.length := by
  simp only [stepWriteMultipleRegistersResp]
  split_ifs with h1 h2
  · simp_all <;> omega
  · exact stepException_progress u 16 d nm
  · exact stepException_progress u 16 d true

theorem stepWriteMultipleRegisters_progress (u : Nat) (d : List Nat) :
    (stepWriteMultipleRegisters u d).frame.isSome →
      1 ≤ (stepWriteMultipleRegisters u d).consumed ∧
      (stepWriteMultipleRegisters u d).consumed ≤ d.length := by
  simp only [stepWriteMultipleRegisters]
  split_ifs with h1 h2 h3
  · simp_all <;> omega
  · exact stepWriteMultipleRegistersResp_progress u d false
  · exact stepWriteMultipleRegistersResp_progress u d true
  · exact stepWriteMultipleRegistersResp_progress u d true

theorem stepReadWriteMultipleResp_progress (u : Nat) (d : List Nat) (nm : Bool) :
    (stepReadWriteMultipleResp u d nm).frame.isSome →
      1 ≤ (stepReadWriteMultipleResp u d nm).consumed ∧
      (stepReadWriteMultipleResp u d nm).consumed ≤ d.length := by
  simp only [stepReadWriteMultipleResp]
  split_ifs <;> simp_all <;> omega

theorem stepReadWriteMultiple_progress (u : Nat) (d : List Nat) :
    (stepReadWriteMultiple u d).frame.isSome →
      1 ≤ (stepReadWriteMultiple u d).consumed ∧
      (stepReadWriteMultiple u d).consumed ≤ d.length := by
  simp only [stepReadWriteMultiple]
  split_ifs with h1 h2 h3
  · simp_all <;> omega
  · exact stepReadWriteMultipleResp_progress u d false
  · exact stepReadWriteMultipleResp_progress u d true
  · exact stepReadWriteMultipleResp_progress u d true

/-- Every accepted frame consumes at least one byte and never more bytes
than the buffer holds. -/
theorem decodeStep_progress (d : List Nat) :
    (decodeStep d).frame.isSome →
      1 ≤ (decodeStep d).consumed ∧ (decodeStep d).consumed ≤ d.length := by
  unfold decodeStep decodeDispatch
  split_ifs <;>
    first
      | exact stepRead_progress _ _ d
      | exact stepWriteSingleCoil_progress _ d
      | exact stepWriteSingleRegister_progress _ d
      | exact stepWriteMultipleCoils_progress _ d
      | exact stepWriteMultipleRegisters_progress _ d
      | exact stepReadWriteMultiple_progress _ d
      | exact stepException_progress _ _ d false
      | simp

/-- With fewer than three bytes the iteration reports "need more data". -/
theorem decodeStep_short (d : List Nat) (h : ¬ 2 < d.length) :
    decodeStep d = { needMore := true } := by
  unfold decodeStep
  rw [if_neg h]

/-- A noise iteration (nothing accepted, `needMoreData` clear) only
happens with more than two bytes in the buffer. -/
theorem decodeStep_noise_length (d : List Nat)
    (hf : (decodeStep d).frame = none) (hn : (decodeStep d).needMore = false) :
    2 < d.length := by
  by_contra h
  rw [decodeStep_short d h] at hn
  simp at hn

/-- Fuel monotonicity: any two fuel values beyond the buffer length give
the same run, because every non-returning iteration consumes at least
one byte.  This is the termination argument for the `while True:` loop. -/
theorem decodeLoop_fuel_aux : ∀ (n : Nat) (d : List Nat) (st : SnifferState)
    (f1 f2 : Nat), d.length ≤ n → d.length < f1 → d.length < f2 →
    decodeLoop f1 st d = decodeLoop f2 st d := by
  intro n
  induction n with
  | zero =>
    intro d st f1 f2 hd h1 h2
    obtain ⟨a, rfl⟩ : ∃ a, f1 = a + 1 := ⟨f1 - 1, by omega⟩
    obtain ⟨b, rfl⟩ : ∃ b, f2 = b + 1 := ⟨f2 - 1, by omega⟩
    have hs : decodeStep d = { needMore := true } := decodeStep_short d (by omega)
    simp [decodeLoop, hs]
  | succ n ih =>
    intro d st f1 f2 hd h1 h2
    obtain ⟨a, rfl⟩ : ∃ a, f1 = a + 1 := ⟨f1 - 1, by omega⟩
    obtain ⟨b, rfl⟩ : ∃ b, f2 = b + 1 := ⟨f2 - 1, by omega⟩
    simp only [decodeLoop]
    rcases hr : (decodeStep d).frame with _ | f
    · rcases hnm : (decodeStep d).needMore with _ | _
      · have hlen := decodeStep_noise_length d hr hnm
        simp only [hr, hnm, Bool.false_eq_true, if_false]
        exact ih (d.drop 1) _ a b (by simp; omega) (by simp; omega) (by simp; omega)
      · simp [hr, hnm]
    · rcases hnm : (decodeStep d).needMore with _ | _
      · have hp := decodeStep_progress d (by simp [hr])
        have heq := ih (d.drop (decodeStep d).consumed)
          (frameEffects (flushTrash st).1 f).1 a b
          (by simp; omega) (by simp; omega) (by simp; omega)
        simp only [hr, hnm, Bool.false_eq_true, if_false]
        rw [heq]
      · simp [hr, hnm]

/-- The remainder returned by the loop is always a suffix of the input:
the loop only ever advances past consumed frames or single noise bytes. -/
theorem decodeLoop_suffix : ∀ (n : Nat) (d : List Nat) (st : SnifferState)
    (f : Nat), d.length ≤ n → d.length < f →
    ∃ k, k ≤ d.length ∧ (decodeLoop f st d).2.1 = d.drop k := by
  intro n
  induction n with
  | zero =>
    intro d st f hd hf
    obtain ⟨a, rfl⟩ : ∃ a, f = a + 1 := ⟨f - 1, by omega⟩
    have hs : decodeStep d = { needMore := true } := decodeStep_short d (by omega)
    exact ⟨0, by simp [decodeLoop, hs]⟩
  | succ n ih =>
    intro d st f hd hf
    obtain ⟨a, rfl⟩ : ∃ a, f = a + 1 := ⟨f - 1, by omega⟩
    simp only [decodeLoop]
    rcases hr : (decodeStep d).frame with _ | fr
    · rcases hnm : (decodeStep d).needMore with _ | _
      · have hlen := decodeStep_noise_length d hr hnm
        simp only [hr, hnm, Bool.false_eq_true, if_false]
        obtain ⟨k, hk, hrem⟩ := ih (d.drop 1) _ a (by simp; omega) (by simp; omega)
        refine ⟨k + 1, by simp at hk; omega, ?_⟩
        rw [hrem, List.drop_drop, Nat.add_comm 1 k]
      · exact ⟨0, by simp [hr, hnm]⟩
    · rcases hnm : (decodeStep d).needMore with _ | _
      · have hp := decodeStep_progress d (by simp [hr])
        obtain ⟨k, hk, hrem⟩ := ih (d.drop (decodeStep d).consumed)
          (frameEffects (flushTrash st).1 fr).1 a (by simp; omega) (by simp; omega)
        simp only [hr, hnm, Bool.false_eq_true, if_false]
        refine ⟨k + (decodeStep d).consumed, by simp at hk; omega, ?_⟩
        rw [hrem, List.drop_drop, Nat.add_comm (decodeStep d).consumed k]
      · have hp := decodeStep_progress d (by simp [hr])
        exact ⟨(decodeStep d).consumed, hp.2, by simp [hr, hnm]⟩

/-- C2: totality of the decoder — for every finite input buffer and every
starting noise-run state the decode loop terminates: any fuel beyond the
buffer length (one unit per iteration) yields the same result as
`decodeModbus`, because every iteration either returns or strictly
shortens the buffer (`decodeStep_progress`, `decodeStep_noise_length`);
and the returned remainder is a suffix of the input obtained by
consuming `k ≤ length` leading bytes.  The embedding is a total
function, and every buffer read inside `decodeStep` sits behind the
length guard mirrored from the source, so no malformed or noisy input
can stop the loop. -/
theorem decodeModbus_total (st : SnifferState) (d : List Nat) (f : Nat)
    (hf : d.length < f) :
    decodeLoop f st d = decodeModbus st d
    ∧ ∃ k, k ≤ d.length ∧ (decodeModbus st d).2.1 = d.drop k := by
  constructor
  · exact decodeLoop_fuel_aux d.length d st f (d.length + 1) le_rfl hf (by omega)
  · exact decodeLoop_suffix d.length d st (d.length + 1) le_rfl (by omega)

/-- Witness: `decodeModbus_total` at a 3-byte junk buffer with fuel 100. -/
theorem decodeModbus_total_witness :
    decodeLoop 100 initState [1, 2, 3] = decodeModbus initState [1, 2, 3]
    ∧ ∃ k, k ≤ ([1, 2, 3] : List Nat).length
        ∧ (decodeModbus initState [1, 2, 3]).2.1 = ([1, 2, 3] : List Nat).drop k :=
  decodeModbus_total initState [1, 2, 3] 100 (by decide)

/-! ### Insufficient-data threshold (the source's `len > frameStart + 2`) -/

/-- Counterexample to the claim that the decoder proceeds whenever at
least 2 bytes remain: a 2-byte buffer is returned unchanged — no unit
identifier or function code is read, no noise byte is consumed. -/
theorem twoByte_buffer_returned_unchanged :
    2 ≤ ([0, 0] : List Nat).length
    ∧ decodeModbus initState [0, 0] = (initState, [0, 0], []) := by
  constructor
  · decide
  · decide

/-- C9 (amended): at each decoding iteration the initial
insufficient-data check stops and returns the remaining buffer unchanged
exactly when fewer than 3 bytes remain at the current frame start;
whenever more than 2 bytes remain, the iteration reads the unit
identifier (`d[0]`) and function code (`d[1]`) and dispatches on the
function code to classify the frame. -/
theorem insufficientData_threshold (st : SnifferState) (d e : List Nat)
    (hd : d.length < 3) (he : 2 < e.length) :
    decodeModbus st d = (st, d, [])
    ∧ decodeStep e = decodeDispatch (e.getD 0 0) (e.getD 1 0) e := by
  constructor
  · have hs : decodeStep d = { needMore := true } := decodeStep_short d (by omega)
    simp [decodeModbus, decodeLoop, hs]
  · unfold decodeStep
    rw [if_pos he]

/-- Witness: `insufficientData_threshold` at a 1-byte and a 3-byte buffer. -/
theorem insufficientData_threshold_witness :
    decodeModbus initState [5] = (initState, [5], [])
    ∧ decodeStep [1, 3, 0]
        = decodeDispatch (([1, 3, 0] : List Nat).getD 0 0)
            (([1, 3, 0] : List Nat).getD 1 0) [1, 3, 0] :=
  insufficientData_threshold initState [5] [1, 3, 0] (by decide) (by decide)

/-! ### The FC16 exception fallback -/

theorem stepReadResp_noError (u fc : Nat) (d : List Nat) (nm : Bool) (f : Frame) :
    (stepReadResp u fc d nm).frame = some f → f.mtype ≠ MsgType.error := by
  simp only [stepReadResp]
  split_ifs <;> intro h <;>
    first
      | (rw [Option.some.injEq] at h; rw [← h]; simp)
      | simp_all

theorem stepRead_noError (u fc : Nat) (d : List Nat) (f : Frame) :
    (stepRead u fc d).frame = some f → f.mtype ≠ MsgType.error := by
  simp only [stepRead]
  split_ifs with h1 h2
  · intro h
    rw [Option.some.injEq] at h
    rw [← h]
    simp
  · exact stepReadResp_noError u fc d false f
  · exact stepReadResp_noError u fc d true f

theorem stepWriteSingleCoilResp_noError (u : Nat) (d : List Nat) (nm : Bool) (f : Frame) :
    (stepWriteSingleCoilResp u d nm).frame = some f → f.mtype ≠ MsgType.error := by
  simp only [stepWriteSingleCoilResp]
  split_ifs <;> intro h <;>
    first
      | (rw [Option.some.injEq] at h; rw [← h]; simp)
      | simp_all

theorem stepWriteSingleCoil_noError (u : Nat) (d : List Nat) (f : Frame) :
    (stepWriteSingleCoil u d).frame = some f → f.mtype ≠ MsgType.error := by
  simp only [stepWriteSingleCoil]
  split_ifs with h1 h2
  · intro h
    rw [Option.some.injEq] at h
    rw [← h]
    simp
  · exact stepWriteSingleCoilResp_noError u d false f
  · exact stepWriteSingleCoilResp_noError u d true f

theorem stepWriteSingleRegisterResp_noError (u : Nat) (d : List Nat) (nm : Bool) (f : Frame) :
    (stepWriteSingleRegisterResp u d nm).frame = some f → f.mtype ≠ MsgType.error := by
  simp only [stepWriteSingleRegisterResp]
  split_ifs <;> intro h <;>
    first
      | (rw [Option.some.injEq] at h; rw [← h]; simp)
      | simp_all

theorem stepWriteSingleRegister_noError (u : Nat) (d : List Nat) (f : Frame) :
    (stepWriteSingleRegister u d).frame = some f → f.mtype ≠ MsgType.error := by
  simp only [stepWriteSingleRegister]
  split_ifs with h1 h2
  · intro h
    rw [Option.some.injEq] at h
    rw [← h]
    simp
  · exact stepWriteSingleRegisterResp_noError u d false f
  · exact stepWriteSingleRegisterResp_noError u d true f

theorem stepWriteMultipleCoilsResp_noError (u : Nat) (d : List Nat) (nm : Bool) (f : Frame) :
    (stepWriteMultipleCoilsResp u d nm).frame = some f → f.mtype ≠ MsgType.error := by
  simp only [stepWriteMultipleCoilsResp]
  split_ifs <;> intro h <;>
    first
      | (rw [Option.some.injEq] at h; rw [← h]; simp)
      | simp_all

theorem stepWriteMultipleCoils_noError (u : Nat) (d : List Nat) (f : Frame) :
    (stepWriteMultipleCoils u d).frame = some f → f.mtype ≠ MsgType.error := by
  simp only [stepWriteMultipleCoils]
  split_ifs with h1 h2 h3
  · intro h
    rw [Option.some.injEq] at h
    rw [← h]
    simp
  · exact stepWriteMultipleCoilsResp_noError u d false f
  · exact stepWriteMultipleCoilsResp_noError u d true f
  · exact stepWriteMultipleCoilsResp_noError u d true f

theorem stepReadWriteMultipleResp_noError (u : Nat) (d : List Nat) (nm : Bool) (f : Frame) :
    (stepReadWriteMultipleResp u d nm).frame = some f → f.mtype ≠ MsgType.error := by
  simp only [stepReadWriteMultipleResp]
  split_ifs <;> intro h <;>
    first
      | (rw [Option.some.injEq] at h; rw [← h]; simp)
      | simp_all

theorem stepReadWriteMultiple_noError (u : Nat) (d : List Nat) (f : Frame) :
    (stepReadWriteMultiple u d).frame = some f → f.mtype ≠ MsgType.error := by
  simp only [stepReadWriteMultiple]
  split_ifs with h1 h2 h3
  · intro h
    rw [Option.some.injEq] at h
    rw [← h]
    simp
  · exact stepReadWriteMultipleResp_noError u d false f
  · exact stepReadWriteMultipleResp_noError u d true f
  · exact stepReadWriteMultipleResp_noError u d true f

/-- Any frame accepted under a function code other than 16 and below the
0x80 exception threshold is never classified as an exception. -/
theorem decodeStep_noError_of_fc (e : List Nat) (f : Frame)
    (he : e.getD 1 0 ≠ 16) (he128 : e.getD 1 0 < 128) :
    (decodeStep e).frame = some f → f.mtype ≠ MsgType.error := by
  unfold decodeStep decodeDispatch
  split_ifs <;>
    first
      | exact stepRead_noError _ _ e f
      | exact stepWriteSingleCoil_noError _ e f
      | exact stepWriteSingleRegister_noError _ e f
      | exact stepWriteMultipleCoils_noError _ e f
      | exact stepReadWriteMultiple_noError _ e f
      | (intro h; simp_all; done)
      | (intro h; omega)
      | omega

/-- C10: for every buffer of total length 5–7 whose second byte is
function code 16 (below the 0x80 threshold the catalog reserves for
exception frames) and whose bytes 3–4 carry the CRC of the first three
bytes, `decodeModbus` classifies and consumes the first five bytes as an
Exception frame whose exception code is the third byte — the FC16 branch
falls back to the exception layout when neither its request nor its
response layout validates; no other non-exception function code ever
produces an exception classification. -/
theorem fc16_exception_fallback (st : SnifferState) (d e : List Nat) (f : Frame)
    (hst : st.trashdata = false)
    (h5 : 5 ≤ d.length) (h7 : d.length ≤ 7) (hfc : d.getD 1 0 = 16)
    (hcrc : be16 d 3 = calcCRC16 d 3)
    (he : e.getD 1 0 ≠ 16) (he128 : e.getD 1 0 < 128)
    (hef : (decodeStep e).frame = some f) :
    decodeModbus st d
      = (st, d.drop 5,
         [Event.frame { unitIdentifier := d.getD 0 0, functionCode := 16,
                        exceptionCode := d.getD 2 0, mtype := MsgType.error }])
    ∧ f.mtype ≠ MsgType.error := by
  have hstep : decodeStep d
      = { frame := some { unitIdentifier := d.getD 0 0, functionCode := 16,
                          exceptionCode := d.getD 2 0, mtype := MsgType.error },
          consumed := 5, needMore := true } := by
    unfold decodeStep decodeDispatch
    rw [if_pos (by omega : 2 < d.length), hfc]
    norm_num
    unfold stepWriteMultipleRegisters
    rw [if_neg (by omega)]
    unfold stepWriteMultipleRegistersResp
    rw [if_neg (by omega)]
    unfold stepException
    rw [if_pos (by omega), if_pos hcrc]
    simp [List.getD]
  refine ⟨?_, decodeStep_noError_of_fc e f he he128 hef⟩
  unfold decodeModbus
  simp only [decodeLoop, hstep]
  simp [flushTrash, hst, frameEffects]

/-- Witness: `fc16_exception_fallback` at the 5-byte buffer
`[1, 16, 2, 172, 1]` (whose bytes 3–4 are the CRC of `[1, 16, 2]`) and,
for the second part, at an accepted FC3 request frame. -/
theorem fc16_exception_fallback_witness :
    decodeModbus initState [1, 16, 2, 172, 1]
      = (initState, ([1, 16, 2, 172, 1] : List Nat).drop 5,
         [Event.frame { unitIdentifier := ([1, 16, 2, 172, 1] : List Nat).getD 0 0,
                        functionCode := 16,
                        exceptionCode := ([1, 16, 2, 172, 1] : List Nat).getD 2 0,
                        mtype := MsgType.error }])
    ∧ ({ unitIdentifier := 1, functionCode := 3, readAddress := 100,
         readQuantity := 2, mtype := MsgType.request } : Frame).mtype
        ≠ MsgType.error :=
  fc16_exception_fallback initState [1, 16, 2, 172, 1]
    [1, 3, 0, 100, 0, 2, 133, 212]
    { unitIdentifier := 1, functionCode := 3, readAddress := 100,
      readQuantity := 2, mtype := MsgType.request }
    (by decide) (by decide) (by decide) (by decide) (by decide) (by decide)
    (by decide) (by decide)

/-! ### Resynchronization after noise -/

theorem pushTrashRun_true (junk : List Nat) (st : SnifferState)
    (hst : st.trashdata = true) :
    junk.foldl pushTrashByte st
      = { st with trashdata := true, trashdataf := st.trashdataf ++ junk } := by
  induction junk generalizing st with
  | nil => simp [← hst]
  | cons b rest ih =>
    simp only [List.foldl_cons]
    have h1 : pushTrashByte st b = { st with trashdataf := st.trashdataf ++ [b] } := by
      unfold pushTrashByte
      rw [if_pos hst]
    rw [h1, ih _ (by simp [hst])]
    simp

theorem pushTrashRun_false (junk : List Nat) (st : SnifferState)
    (hst : st.trashdata = false) (hne : junk ≠ []) :
    junk.foldl pushTrashByte st
      = { st with trashdata := true, trashdataf := junk } := by
  cases junk with
  | nil => exact absurd rfl hne
  | cons b rest =>
    simp only [List.foldl_cons]
    have h1 : pushTrashByte st b
        = { st with trashdata := true, trashdataf := [b] } := by
      unfold pushTrashByte
      rw [if_neg (by simp [hst])]
    rw [h1, pushTrashRun_true rest _ (by simp)]
    simp

/-- The loop consumes a run of noise bytes one per iteration,
accumulating them in the trash state, provided each suffix of the run
(with what follows) is rejected without a request for more data. -/
theorem decodeLoop_noise_prefix : ∀ (junk : List Nat) (st : SnifferState)
    (rest : List Nat) (f : Nat),
    (∀ i < junk.length, isNoiseStep (junk.drop i ++ rest)) →
    decodeLoop (junk.length + f) st (junk ++ rest)
      = decodeLoop f (junk.foldl pushTrashByte st) rest := by
  intro junk
  induction junk with
  | nil => intro st rest f _; simp
  | cons b jrest ih =>
    intro st rest f h
    obtain ⟨hf, hn⟩ : isNoiseStep ((b :: jrest) ++ rest) := by
      have := h 0 (by simp)
      simpa using this
    have hfuel : (b :: jrest).length + f = (jrest.length + f) + 1 := by
      simp
      omega
    rw [hfuel]
    simp only [decodeLoop, List.cons_append] at hf hn ⊢
    simp only [hf, hn, Bool.false_eq_true, if_false]
    have hdrop : (b :: (jrest ++ rest)).drop 1 = jrest ++ rest := rfl
    have hb : (b :: (jrest ++ rest)).getD 0 0 = b := rfl
    rw [hdrop, hb]
    exact ih (pushTrashByte st b) rest f (fun i hi => by
      have := h (i + 1) (by simp; omega)
      simpa using this)

/-- The loop on the empty buffer returns immediately. -/
theorem decodeLoop_nil (f : Nat) (st : SnifferState) :
    decodeLoop f st [] = (st, [], []) := by
  cases f with
  | zero => rfl
  | succ a =>
    have hs : decodeStep [] = { needMore := true } := decodeStep_short [] (by simp)
    simp [decodeLoop, hs]

/-- Accepting a frame that spans the whole buffer: the noise run is
flushed, the frame is emitted with its effects, and nothing remains. -/
theorem decodeLoop_accept (st : SnifferState) (d : List Nat) (f : Frame)
    (fuel : Nat) (hf : (decodeStep d).frame = some f)
    (hc : (decodeStep d).consumed = d.length) :
    decodeLoop (fuel + 1) st d
      = ((frameEffects (flushTrash st).1 f).1, [],
         (flushTrash st).2 ++ [Event.frame f] ++ (frameEffects (flushTrash st).1 f).2) := by
  simp only [decodeLoop, hf, hc]
  cases (decodeStep d).needMore with
  | true => simp
  | false => simp [decodeLoop_nil]

/-- C3: resynchronization after noise — junk bytes none of whose suffixes
start an accepted frame, followed by one frame accepted in full, are
consumed one byte per rejected iteration into a single noise run that is
flushed as one aggregated entry when the frame is accepted; the frame is
then decoded, the whole buffer is consumed, and the emitted events are
exactly the noise aggregate followed by the frame (plus the frame's own
correlator/CSV effects). -/
theorem resynchronization_after_noise (st : SnifferState) (junk fr : List Nat)
    (f : Frame) (nm : Bool)
    (hst : st.trashdata = false) (hne : junk ≠ [])
    (hnoise : ∀ i < junk.length, isNoiseStep (junk.drop i ++ fr))
    (haccept : decodeStep fr
      = { frame := some f, consumed := fr.length, needMore := nm }) :
    decodeModbus st (junk ++ fr)
      = ((frameEffects { st with trashdata := false, trashdataf := [] } f).1, [],
         [Event.noise junk, Event.frame f]
           ++ (frameEffects { st with trashdata := false, trashdataf := [] } f).2) := by
  unfold decodeModbus
  have hlen : (junk ++ fr).length + 1 = junk.length + (fr.length + 1) := by
    simp
    omega
  rw [hlen, decodeLoop_noise_prefix junk st fr (fr.length + 1) hnoise,
    pushTrashRun_false junk st hst hne,
    decodeLoop_accept _ fr f fr.length (by rw [haccept]) (by rw [haccept])]
  simp [flushTrash]

/-- Witness: `resynchronization_after_noise` with one junk byte `0x00`
before a valid FC3 request addressed to unit 7. -/
theorem resynchronization_after_noise_witness :
    decodeModbus initState ([0] ++ [7, 3, 0, 5, 0, 1, 148, 109])
      = ((frameEffects { initState with trashdata := false, trashdataf := [] }
            { unitIdentifier := 7, functionCode := 3, readAddress := 5,
              readQuantity := 1, mtype := MsgType.request }).1, [],
         [Event.noise [0],
          Event.frame { unitIdentifier := 7, functionCode := 3, readAddress := 5,
                        readQuantity := 1, mtype := MsgType.request }]
           ++ (frameEffects { initState with trashdata := false, trashdataf := [] }
                 { unitIdentifier := 7, functionCode := 3, readAddress := 5,
                   readQuantity := 1, mtype := MsgType.request }).2) :=
  resynchronization_after_noise initState [0] [7, 3, 0, 5, 0, 1, 148, 109]
    { unitIdentifier := 7, functionCode := 3, readAddress := 5,
      readQuantity := 1, mtype := MsgType.request } false
    (by decide) (by decide) (by decide) (by decide)

/-! ### Request-first disambiguation -/

theorem stepRead_accept (u fc : Nat) (d : List Nat) (h8 : 8 ≤ d.length)
    (hcrc : be16 d 6 = calcCRC16 d 6) :
    stepRead u fc d
      = { frame := some { unitIdentifier := u, functionCode := fc,
                          readAddress := be16 d 2, readQuantity := be16 d 4,
                          mtype := MsgType.request },
          consumed := 8, needMore := false } := by
  simp only [stepRead]
  rw [if_pos h8, if_pos hcrc]

theorem stepWriteSingleCoil_accept (u : Nat) (d : List Nat) (h8 : 8 ≤ d.length)
    (hcrc : be16 d 6 = calcCRC16 d 6) :
    stepWriteSingleCoil u d
      = { frame := some { unitIdentifier := u, functionCode := 5,
                          writeAddress := be16 d 2,
                          writeData := [d.getD 4 0, d.getD 5 0],
                          mtype := MsgType.request },
          consumed := 8, needMore := false } := by
  simp only [stepWriteSingleCoil]
  rw [if_pos h8, if_pos hcrc]

theorem stepWriteSingleRegister_accept (u : Nat) (d : List Nat) (h8 : 8 ≤ d.length)
    (hcrc : be16 d 6 = calcCRC16 d 6) :
    stepWriteSingleRegister u d
      = { frame := some { unitIdentifier := u, functionCode := 6,
                          writeAddress := be16 d 2,
                          writeData := [d.getD 4 0, d.getD 5 0],
                          mtype := MsgType.request },
          consumed := 8, needMore := false } := by
  simp only [stepWriteSingleRegister]
  rw [if_pos h8, if_pos hcrc]

theorem stepWriteMultipleCoils_accept (u : Nat) (d : List Nat)
    (h10 : 10 ≤ d.length) (h9 : 9 + d.getD 6 0 ≤ d.length)
    (hcrc : be16 d (7 + d.getD 6 0) = calcCRC16 d (7 + d.getD 6 0)) :
    stepWriteMultipleCoils u d
      = { frame := some { unitIdentifier := u, functionCode := 15,
                          writeAddress := be16 d 2, writeQuantity := be16 d 4,
                          writeByteCount := d.getD 6 0,
                          writeData := (d.drop 7).take (d.getD 6 0),
                          mtype := MsgType.request },
          consumed := 9 + d.getD 6 0, needMore := false } := by
  simp only [stepWriteMultipleCoils]
  rw [if_pos h10, if_pos h9, if_pos hcrc]

theorem stepWriteMultipleRegisters_accept (u : Nat) (d : List Nat)
    (h11 : 11 ≤ d.length) (h9 : 9 + d.getD 6 0 ≤ d.length)
    (hcrc : be16 d (7 + d.getD 6 0) = calcCRC16 d (7 + d.getD 6 0)) :
    stepWriteMultipleRegisters u d
      = { frame := some { unitIdentifier := u, functionCode := 16,
                          writeAddress := be16 d 2, writeQuantity := be16 d 4,
                          writeByteCount := d.getD 6 0,
                          writeData := (d.drop 7).take (d.getD 6 0),
                          mtype := MsgType.request },
          consumed := 9 + d.getD 6 0, needMore := false } := by
  simp only [stepWriteMultipleRegisters]
  rw [if_pos h11, if_pos h9, if_pos hcrc]

theorem stepReadWriteMultiple_accept (u : Nat) (d : List Nat)
    (h15 : 15 ≤ d.length) (h13 : 13 + d.getD 10 0 ≤ d.length)
    (hcrc : be16 d (11 + d.getD 10 0) = calcCRC16 d (11 + d.getD 10 0)) :
    stepReadWriteMultiple u d
      = { frame := some { unitIdentifier := u, functionCode := 23,
                          readAddress := be16 d 2, readQuantity := be16 d 4,
                          writeAddress := be16 d 6, writeQuantity := be16 d 8,
                          writeByteCount := d.getD 10 0,
                          writeData := (d.drop 11).take (d.getD 10 0),
                          mtype := MsgType.request },
          consumed := 13 + d.getD 10 0, needMore := false } := by
  simp only [stepReadWriteMultiple]
  rw [if_pos h15, if_pos h13, if_pos hcrc]

/-- Whenever the request-layout interpretation of the leading bytes
validates, the iteration accepts a Request frame. -/
theorem decodeStep_of_requestLayoutValid (d : List Nat)
    (hreq : requestLayoutValid d = true) :
    ∃ f, (decodeStep d).frame = some f ∧ f.mtype = MsgType.request
      ∧ f.unitIdentifier = d.getD 0 0 ∧ f.functionCode = d.getD 1 0 := by
  simp only [requestLayoutValid] at hreq
  split_ifs at hreq with hA hB hC hD
  · simp only [Bool.and_eq_true, decide_eq_true_eq] at hreq
    obtain ⟨h8, hcrc⟩ := hreq
    have h2 : 2 < d.length := by omega
    rcases hA with h | h | h | h | h | h <;>
      simp only [h] <;>
      [ (have hdisp : decodeStep d = stepRead (d.getD 0 0) 1 d := by
           unfold decodeStep decodeDispatch
           rw [if_pos h2]
           simp only [List.getD_eq_getElem?_getD] at h
           simp [h]
         rw [hdisp, stepRead_accept _ 1 d h8 hcrc]
         exact ⟨_, rfl, rfl, rfl, rfl⟩);
        (have hdisp : decodeStep d = stepRead (d.getD 0 0) 2 d := by
           unfold decodeStep decodeDispatch
           rw [if_pos h2]
           simp only [List.getD_eq_getElem?_getD] at h
           simp [h]
         rw [hdisp, stepRead_accept _ 2 d h8 hcrc]
         exact ⟨_, rfl, rfl, rfl, rfl⟩);
        (have hdisp : decodeStep d = stepRead (d.getD 0 0) 3 d := by
           unfold decodeStep decodeDispatch
           rw [if_pos h2]
           simp only [List.getD_eq_getElem?_getD] at h
           simp [h]
         rw [hdisp, stepRead_accept _ 3 d h8 hcrc]
         exact ⟨_, rfl, rfl, rfl, rfl⟩);
        (have hdisp : decodeStep d = stepRead (d.getD 0 0) 4 d := by
           unfold decodeStep decodeDispatch
           rw [if_pos h2]
           simp only [List.getD_eq_getElem?_getD] at h
           simp [h]
         rw [hdisp, stepRead_accept _ 4 d h8 hcrc]
         exact ⟨_, rfl, rfl, rfl, rfl⟩);
        (have hdisp : decodeStep d = stepWriteSingleCoil (d.getD 0 0) d := by
           unfold decodeStep decodeDispatch
           rw [if_pos h2]
           simp only [List.getD_eq_getElem?_getD] at h
           simp [h]
         rw [hdisp, stepWriteSingleCoil_accept _ d h8 hcrc]
         exact ⟨_, rfl, rfl, rfl, rfl⟩);
        (have hdisp : decodeStep d = stepWriteSingleRegister (d.getD 0 0) d := by
           unfold decodeStep decodeDispatch
           rw [if_pos h2]
           simp only [List.getD_eq_getElem?_getD] at h
           simp [h]
         rw [hdisp, stepWriteSingleRegister_accept _ d h8 hcrc]
         exact ⟨_, rfl, rfl, rfl, rfl⟩)]
  · simp only [Bool.and_eq_true, decide_eq_true_eq] at hreq
    obtain ⟨⟨h10, h9⟩, hcrc⟩ := hreq
    have h2 : 2 < d.length := by omega
    have hdisp : decodeStep d = stepWriteMultipleCoils (d.getD 0 0) d := by
      unfold decodeStep decodeDispatch
      rw [if_pos h2]
      simp only [List.getD_eq_getElem?_getD] at hB
      simp [hB]
    rw [hdisp, stepWriteMultipleCoils_accept _ d h10 h9 hcrc]
    exact ⟨_, rfl, rfl, rfl, by rw [hB]⟩
  · simp only [Bool.and_eq_true, decide_eq_true_eq] at hreq
    obtain ⟨⟨h11, h9⟩, hcrc⟩ := hreq
    have h2 : 2 < d.length := by omega
    have hdisp : decodeStep d = stepWriteMultipleRegisters (d.getD 0 0) d := by
      unfold decodeStep decodeDispatch
      rw [if_pos h2]
      simp only [List.getD_eq_getElem?_getD] at hC
      simp [hC]
    rw [hdisp, stepWriteMultipleRegisters_accept _ d h11 h9 hcrc]
    exact ⟨_, rfl, rfl, rfl, by rw [hC]⟩
  · simp only [Bool.and_eq_true, decide_eq_true_eq] at hreq
    obtain ⟨⟨h15, h13⟩, hcrc⟩ := hreq
    have h2 : 2 < d.length := by omega
    have hdisp : decodeStep d = stepReadWriteMultiple (d.getD 0 0) d := by
      unfold decodeStep decodeDispatch
      rw [if_pos h2]
      simp only [List.getD_eq_getElem?_getD] at hD
      simp [hD]
    rw [hdisp, stepReadWriteMultiple_accept _ d h15 h13 hcrc]
    exact ⟨_, rfl, rfl, rfl, by rw [hD]⟩

/-- C6: request-first disambiguation — whenever the leading bytes admit a
valid request interpretation (length and CRC checks of the request
layout pass), the iteration classifies the frame as a Request, even if a
response interpretation would also validate; and any frame the decoder
classifies as a Response comes from a buffer whose request interpretation
fails (too short for the request layout or request-layout CRC mismatch),
since the response layout is attempted only after the request attempt. -/
theorem request_first_disambiguation (d e : List Nat) (g : Frame)
    (hreq : requestLayoutValid d = true)
    (hge : (decodeStep e).frame = some g)
    (hgresp : g.mtype = MsgType.response) :
    (∃ f, (decodeStep d).frame = some f ∧ f.mtype = MsgType.request
        ∧ f.unitIdentifier = d.getD 0 0 ∧ f.functionCode = d.getD 1 0)
    ∧ requestLayoutValid e = false := by
  refine ⟨decodeStep_of_requestLayoutValid d hreq, ?_⟩
  by_contra hcon
  have he : requestLayoutValid e = true := by
    rcases Bool.eq_false_or_eq_true (requestLayoutValid e) with hv | hv
    · exact hv
    · exact absurd hv hcon
  obtain ⟨f, hf, hfreq, _, _⟩ := decodeStep_of_requestLayoutValid e he
  rw [hge, Option.some.injEq] at hf
  rw [hf, hfreq] at hgresp
  exact absurd hgresp (by simp)

/-- Witness: `request_first_disambiguation` at a valid FC3 request frame
and an accepted FC3 response frame (one register, 7 bytes — too short
for the 8-byte request layout). -/
theorem request_first_disambiguation_witness :
    (∃ f, (decodeStep [1, 3, 0, 100, 0, 2, 133, 212]).frame = some f
        ∧ f.mtype = MsgType.request
        ∧ f.unitIdentifier = ([1, 3, 0, 100, 0, 2, 133, 212] : List Nat).getD 0 0
        ∧ f.functionCode = ([1, 3, 0, 100, 0, 2, 133, 212] : List Nat).getD 1 0)
    ∧ requestLayoutValid [1, 3, 2, 0, 5, 120, 71] = false :=
  request_first_disambiguation [1, 3, 0, 100, 0, 2, 133, 212]
    [1, 3, 2, 0, 5, 120, 71]
    { unitIdentifier := 1, functionCode := 3, readByteCount := 2,
      readData := [0, 5], mtype := MsgType.response }
    (by decide) (by decide) (by decide)

/-! ### Decoding synthetically built frames -/

theorem getD_append_left (l1 l2 : List Nat) (n d0 : Nat) (h : n < l1.length) :
    (l1 ++ l2).getD n d0 = l1.getD n d0 := by
  simp [List.getD_eq_getElem?_getD, List.getElem?_append_left h]

theorem getD_append_right (l1 l2 : List Nat) (n d0 : Nat) (h : l1.length ≤ n) :
    (l1 ++ l2).getD n d0 = l2.getD (n - l1.length) d0 := by
  simp [List.getD_eq_getElem?_getD, List.getElem?_append_right h]

theorem withCRC_length (body : List Nat) :
    (withCRC body).length = body.length + 2 := by
  simp [withCRC]

/-- The source's CRC comparison holds by construction at the end of the
body of a `withCRC` frame. -/
theorem withCRC_crc_ok (body : List Nat) (k : Nat) (hk : k = body.length) :
    be16 (withCRC body) k = calcCRC16 (withCRC body) k := by
  subst hk
  unfold be16 withCRC
  rw [getD_append_right _ _ _ _ le_rfl, getD_append_right _ _ _ _ (by omega)]
  simp only [Nat.sub_self]
  have h1 : body.length + 1 - body.length = 1 := by omega
  rw [h1]
  simp only [List.getD_cons_zero, List.getD_cons_succ]
  rw [calcCRC16_append _ _ _ le_rfl]
  omega

/-- Decoding one iteration of an exactly built read request (FC01–FC04). -/
theorem decodeStep_encodeReadRequest (u fc addr qty : Nat)
    (hfc : fc = 1 ∨ fc = 2 ∨ fc = 3 ∨ fc = 4) :
    decodeStep (encodeReadRequest u fc addr qty)
      = { frame := some { unitIdentifier := u, functionCode := fc,
                          readAddress := addr, readQuantity := qty,
                          mtype := MsgType.request },
          consumed := 8, needMore := false } := by
  have hlen : (encodeReadRequest u fc addr qty).length = 8 := by
    simp [encodeReadRequest, withCRC]
  have hu : (encodeReadRequest u fc addr qty).getD 0 0 = u := by
    simp [encodeReadRequest, withCRC]
  have hf : (encodeReadRequest u fc addr qty).getD 1 0 = fc := by
    simp [encodeReadRequest, withCRC]
  have hcrc : be16 (encodeReadRequest u fc addr qty) 6
      = calcCRC16 (encodeReadRequest u fc addr qty) 6 :=
    withCRC_crc_ok _ 6 (by simp)
  have haddr : be16 (encodeReadRequest u fc addr qty) 2 = addr := by
    simp [encodeReadRequest, withCRC, be16]
    omega
  have hqty : be16 (encodeReadRequest u fc addr qty) 4 = qty := by
    simp [encodeReadRequest, withCRC, be16]
    omega
  have hdisp : decodeStep (encodeReadRequest u fc addr qty)
      = stepRead u fc (encodeReadRequest u fc addr qty) := by
    simp only [List.getD_eq_getElem?_getD] at hu hf
    rcases hfc with rfl | rfl | rfl | rfl <;>
      (unfold decodeStep decodeDispatch; rw [if_pos (by omega)]; simp [hu, hf])
  rw [hdisp, stepRead_accept u fc _ (by omega) hcrc, haddr, hqty]

theorem stepReadResp_accept (u fc : Nat) (d : List Nat) (nm : Bool)
    (h7 : 7 ≤ d.length) (hbc : 5 + d.getD 2 0 ≤ d.length)
    (hcrc : be16 d (3 + d.getD 2 0) = calcCRC16 d (3 + d.getD 2 0)) :
    stepReadResp u fc d nm
      = { frame := some { unitIdentifier := u, functionCode := fc,
                          readByteCount := d.getD 2 0,
                          readData := (d.drop 3).take (d.getD 2 0),
                          mtype := MsgType.response },
          consumed := 5 + d.getD 2 0, needMore := nm } := by
  simp only [stepReadResp]
  rw [if_pos h7, if_pos hbc, if_pos hcrc]

/-- Decoding one iteration of an exactly built read response (FC01–FC04)
whose request-layout interpretation does not validate. -/
theorem decodeStep_encodeReadResponse (u fc : Nat) (data : List Nat)
    (hfc : fc = 1 ∨ fc = 2 ∨ fc = 3 ∨ fc = 4)
    (hdl : 2 ≤ data.length)
    (hnr : requestLayoutValid (encodeReadResponse u fc data) = false) :
    (decodeStep (encodeReadResponse u fc data)).frame
        = some { unitIdentifier := u, functionCode := fc,
                 readByteCount := data.length, readData := data,
                 mtype := MsgType.response }
    ∧ (decodeStep (encodeReadResponse u fc data)).consumed
        = (encodeReadResponse u fc data).length := by
  have hlen : (encodeReadResponse u fc data).length = data.length + 5 := by
    simp [encodeReadResponse, withCRC]
    try omega
  have hu : (encodeReadResponse u fc data).getD 0 0 = u := by
    simp [encodeReadResponse, withCRC]
  have hf : (encodeReadResponse u fc data).getD 1 0 = fc := by
    simp [encodeReadResponse, withCRC]
  have hbc : (encodeReadResponse u fc data).getD 2 0 = data.length := by
    simp [encodeReadResponse, withCRC]
  have hcrc : be16 (encodeReadResponse u fc data) (3 + data.length)
      = calcCRC16 (encodeReadResponse u fc data) (3 + data.length) :=
    withCRC_crc_ok _ _ (by simp; omega)
  have hdata : ((encodeReadResponse u fc data).drop 3).take data.length = data := by
    have hd3 : (encodeReadResponse u fc data).drop 3
        = data ++ [calcCRC16 ([u, fc, data.length] ++ data)
              ([u, fc, data.length] ++ data).length / 256,
            calcCRC16 ([u, fc, data.length] ++ data)
              ([u, fc, data.length] ++ data).length % 256] := by
      simp [encodeReadResponse, withCRC]
    rw [hd3, List.take_left' rfl]
  have hdisp : decodeStep (encodeReadResponse u fc data)
      = stepRead u fc (encodeReadResponse u fc data) := by
    simp only [List.getD_eq_getElem?_getD] at hu hf
    rcases hfc with rfl | rfl | rfl | rfl <;>
      (unfold decodeStep decodeDispatch; rw [if_pos (by omega)]; simp [hu, hf])
  have hresp : ∀ nm : Bool,
      stepReadResp u fc (encodeReadResponse u fc data) nm
        = { frame := some { unitIdentifier := u, functionCode := fc,
                            readByteCount := data.length, readData := data,
                            mtype := MsgType.response },
            consumed := 5 + data.length, needMore := nm } := by
    intro nm
    have := stepReadResp_accept u fc (encodeReadResponse u fc data) nm
      (by omega) (by rw [hbc]; omega) (by rw [hbc]; exact hcrc)
    rw [this, hbc, hdata]
  rw [hdisp]
  simp only [stepRead]
  by_cases h8 : 8 ≤ (encodeReadResponse u fc data).length
  · rw [if_pos h8]
    have hc6 : ¬ be16 (encodeReadResponse u fc data) 6
        = calcCRC16 (encodeReadResponse u fc data) 6 := by
      intro hc
      have : requestLayoutValid (encodeReadResponse u fc data) = true := by
        unfold requestLayoutValid
        simp only [List.getD_eq_getElem?_getD] at hf ⊢
        rw [hf]
        rcases hfc with rfl | rfl | rfl | rfl <;> simp [h8, hc]
      rw [this] at hnr
      exact absurd hnr (by simp)
    rw [if_neg hc6, hresp false]
    constructor
    · rfl
    · simp
      omega
  · rw [if_neg h8, hresp true]
    constructor
    · rfl
    · simp
      omega

/-- Running the decoder on exactly one read request (FC03/FC04): the
pending-request map is updated under key `(unit, fc)`. -/
theorem decodeModbus_readRequest (st : SnifferState) (u fc addr qty : Nat)
    (hst : st.trashdata = false) (hfc : fc = 3 ∨ fc = 4) :
    decodeModbus st (encodeReadRequest u fc addr qty)
      = ({ st with pendingRequests :=
            (pendingSet st.pendingRequests (u, fc) (addr, qty)) },
         [], [Event.frame { unitIdentifier := u, functionCode := fc,
                            readAddress := addr, readQuantity := qty,
                            mtype := MsgType.request }]) := by
  have hstep := decodeStep_encodeReadRequest u fc addr qty
    (by rcases hfc with h | h <;> simp [h])
  unfold decodeModbus
  rw [decodeLoop_accept st _ _ _ (by rw [hstep])
      (by rw [hstep]; simp [encodeReadRequest, withCRC])]
  rcases hfc with rfl | rfl <;> simp [flushTrash, hst, frameEffects]

/-- Running the decoder on exactly one read response (FC03/FC04) whose
request interpretation fails: when a pending request for `(unit, fc)` is
present it is popped and one CSV row is emitted with its start address;
when none is present no CSV row is emitted. -/
theorem decodeModbus_readResponse (st : SnifferState) (u fc : Nat)
    (data : List Nat) (hst : st.trashdata = false) (hfc : fc = 3 ∨ fc = 4)
    (hdl : 2 ≤ data.length)
    (hnr : requestLayoutValid (encodeReadResponse u fc data) = false) :
    decodeModbus st (encodeReadResponse u fc data)
      = match pendingGet st.pendingRequests (u, fc) with
        | some pr =>
          ({ st with pendingRequests := (pendingPop st.pendingRequests (u, fc)) },
           [],
           [Event.frame { unitIdentifier := u, functionCode := fc,
                          readByteCount := data.length, readData := data,
                          mtype := MsgType.response },
            Event.csvWrite u "READ" pr.1 (registerValuesOf data).length
              (registerValuesOf data)])
        | none =>
          (st, [],
           [Event.frame { unitIdentifier := u, functionCode := fc,
                          readByteCount := data.length, readData := data,
                          mtype := MsgType.response }]) := by
  obtain ⟨hframe, hcons⟩ := decodeStep_encodeReadResponse u fc data
    (by rcases hfc with h | h <;> simp [h]) hdl hnr
  unfold decodeModbus
  rw [decodeLoop_accept st _ _ _ hframe hcons]
  rcases hfc with rfl | rfl <;>
    rcases hp : pendingGet st.pendingRequests (u, _) with _ | pr <;>
    simp [flushTrash, hst, frameEffects, hp]

/-- C5: correlator attribution — accepting an FC3/FC4 request stores
`(start_address, quantity)` in the pending-request map under key
`(unit_id, function_code)`, overwriting any prior entry for that key
(lookup after the store yields the new value); accepting a response for
the same key removes the entry and passes its start address together
with the decoded register values to the CSV logger; with no entry
present the response is still decoded and emitted but no CSV row is
written.  In particular an FC3 request for address 100 quantity 2
followed by its valid two-register response is attributed to starting
address 100. -/
theorem correlator_attribution (st1 st2 st3 : SnifferState)
    (u fc addr qty a q : Nat) (data : List Nat)
    (h1 : st1.trashdata = false) (h2 : st2.trashdata = false)
    (h3 : st3.trashdata = false) (hfc : fc = 3 ∨ fc = 4)
    (hdl : 2 ≤ data.length)
    (hnr : requestLayoutValid (encodeReadResponse u fc data) = false)
    (hpend : pendingGet st2.pendingRequests (u, fc) = some (a, q))
    (hnone : pendingGet st3.pendingRequests (u, fc) = none) :
    decodeModbus st1 (encodeReadRequest u fc addr qty)
        = ({ st1 with pendingRequests :=
              (pendingSet st1.pendingRequests (u, fc) (addr, qty)) },
           [], [Event.frame { unitIdentifier := u, functionCode := fc,
                              readAddress := addr, readQuantity := qty,
                              mtype := MsgType.request }])
    ∧ pendingGet (pendingSet st1.pendingRequests (u, fc) (addr, qty)) (u, fc)
        = some (addr, qty)
    ∧ decodeModbus st2 (encodeReadResponse u fc data)
        = ({ st2 with pendingRequests := (pendingPop st2.pendingRequests (u, fc)) },
           [],
           [Event.frame { unitIdentifier := u, functionCode := fc,
                          readByteCount := data.length, readData := data,
                          mtype := MsgType.response },
            Event.csvWrite u "READ" a (registerValuesOf data).length
              (registerValuesOf data)])
    ∧ decodeModbus st3 (encodeReadResponse u fc data)
        = (st3, [],
           [Event.frame { unitIdentifier := u, functionCode := fc,
                          readByteCount := data.length, readData := data,
                          mtype := MsgType.response }])
    ∧ decodeModbus initState
          (encodeReadRequest 1 3 100 2 ++ encodeReadResponse 1 3 [0, 10, 0, 20])
        = (initState, [],
           [Event.frame { unitIdentifier := 1, functionCode := 3,
                          readAddress := 100, readQuantity := 2,
                          mtype := MsgType.request },
            Event.frame { unitIdentifier := 1, functionCode := 3,
                          readByteCount := 4, readData := [0, 10, 0, 20],
                          mtype := MsgType.response },
            Event.csvWrite 1 "READ" 100 2 [10, 20]]) := by
  refine ⟨decodeModbus_readRequest st1 u fc addr qty h1 hfc, ?_, ?_, ?_, by decide⟩
  · simp [pendingGet, pendingSet]
  · rw [decodeModbus_readResponse st2 u fc data h2 hfc hdl hnr, hpend]
  · rw [decodeModbus_readResponse st3 u fc data h3 hfc hdl hnr, hnone]

/-- Witness: `correlator_attribution` at unit 1, FC3, address 100,
quantity 2, with a pending entry `(100, 2)` present in one state and
absent in another. -/
theorem correlator_attribution_witness :
    decodeModbus initState (encodeReadRequest 1 3 100 2)
        = ({ initState with pendingRequests :=
              (pendingSet initState.pendingRequests (1, 3) (100, 2)) },
           [], [Event.frame { unitIdentifier := 1, functionCode := 3,
                              readAddress := 100, readQuantity := 2,
                              mtype := MsgType.request }])
    ∧ pendingGet (pendingSet initState.pendingRequests (1, 3) (100, 2)) (1, 3)
        = some (100, 2)
    ∧ decodeModbus { initState with pendingRequests := [((1, 3), (100, 2))] }
          (encodeReadResponse 1 3 [0, 10, 0, 20])
        = ({ { initState with pendingRequests := [((1, 3), (100, 2))] } with
              pendingRequests :=
                (pendingPop [((1, 3), (100, 2))] (1, 3)) },
           [],
           [Event.frame { unitIdentifier := 1, functionCode := 3,
                          readByteCount := 4, readData := [0, 10, 0, 20],
                          mtype := MsgType.response },
            Event.csvWrite 1 "READ" 100 (registerValuesOf [0, 10, 0, 20]).length
              (registerValuesOf [0, 10, 0, 20])])
    ∧ decodeModbus initState (encodeReadResponse 1 3 [0, 10, 0, 20])
        = (initState, [],
           [Event.frame { unitIdentifier := 1, functionCode := 3,
                          readByteCount := 4, readData := [0, 10, 0, 20],
                          mtype := MsgType.response }])
    ∧ decodeModbus initState
          (encodeReadRequest 1 3 100 2 ++ encodeReadResponse 1 3 [0, 10, 0, 20])
        = (initState, [],
           [Event.frame { unitIdentifier := 1, functionCode := 3,
                          readAddress := 100, readQuantity := 2,
                          mtype := MsgType.request },
            Event.frame { unitIdentifier := 1, functionCode := 3,
                          readByteCount := 4, readData := [0, 10, 0, 20],
                          mtype := MsgType.response },
            Event.csvWrite 1 "READ" 100 2 [10, 20]]) :=
  correlator_attribution initState
    { initState with pendingRequests := [((1, 3), (100, 2))] } initState
    1 3 100 2 100 2 [0, 10, 0, 20]
    (by decide) (by decide) (by decide) (by decide) (by decide) (by decide)
    (by decide) (by decide)

/-- Decoding one iteration of an exactly built write-single request
(FC05/FC06). -/
theorem decodeStep_encodeWriteSingleRequest (u fc addr v1 v2 : Nat)
    (hfc : fc = 5 ∨ fc = 6) :
    decodeStep (encodeWriteSingleRequest u fc addr v1 v2)
      = { frame := some { unitIdentifier := u, functionCode := fc,
                          writeAddress := addr, writeData := [v1, v2],
                          mtype := MsgType.request },
          consumed := 8, needMore := false } := by
  have hlen : (encodeWriteSingleRequest u fc addr v1 v2).length = 8 := by
    simp [encodeWriteSingleRequest, withCRC]
  have hu : (encodeWriteSingleRequest u fc addr v1 v2).getD 0 0 = u := by
    simp [encodeWriteSingleRequest, withCRC]
  have hf : (encodeWriteSingleRequest u fc addr v1 v2).getD 1 0 = fc := by
    simp [encodeWriteSingleRequest, withCRC]
  have hv1 : (encodeWriteSingleRequest u fc addr v1 v2).getD 4 0 = v1 := by
    simp [encodeWriteSingleRequest, withCRC]
  have hv2 : (encodeWriteSingleRequest u fc addr v1 v2).getD 5 0 = v2 := by
    simp [encodeWriteSingleRequest, withCRC]
  have hcrc : be16 (encodeWriteSingleRequest u fc addr v1 v2) 6
      = calcCRC16 (encodeWriteSingleRequest u fc addr v1 v2) 6 :=
    withCRC_crc_ok _ 6 (by simp)
  have haddr : be16 (encodeWriteSingleRequest u fc addr v1 v2) 2 = addr := by
    simp [encodeWriteSingleRequest, withCRC, be16]
    omega
  rcases hfc with rfl | rfl
  · have hdisp : decodeStep (encodeWriteSingleRequest u 5 addr v1 v2)
        = stepWriteSingleCoil u (encodeWriteSingleRequest u 5 addr v1 v2) := by
      simp only [List.getD_eq_getElem?_getD] at hu hf
      unfold decodeStep decodeDispatch
      rw [if_pos (by omega)]
      simp [hu, hf]
    rw [hdisp, stepWriteSingleCoil_accept u _ (by omega) hcrc, haddr, hv1, hv2]
  · have hdisp : decodeStep (encodeWriteSingleRequest u 6 addr v1 v2)
        = stepWriteSingleRegister u (encodeWriteSingleRequest u 6 addr v1 v2) := by
      simp only [List.getD_eq_getElem?_getD] at hu hf
      unfold decodeStep decodeDispatch
      rw [if_pos (by omega)]
      simp [hu, hf]
    rw [hdisp, stepWriteSingleRegister_accept u _ (by omega) hcrc, haddr, hv1, hv2]

/-- Decoding one iteration of an exactly built write-multiple request
(FC15 with at least one data byte, FC16 with at least two). -/
theorem decodeStep_encodeWriteMultipleRequest (u fc addr qty : Nat)
    (data : List Nat)
    (hok : (fc = 15 ∧ 1 ≤ data.length) ∨ (fc = 16 ∧ 2 ≤ data.length)) :
    decodeStep (encodeWriteMultipleRequest u fc addr qty data)
      = { frame := some { unitIdentifier := u, functionCode := fc,
                          writeAddress := addr, writeQuantity := qty,
                          writeByteCount := data.length, writeData := data,
                          mtype := MsgType.request },
          consumed := 9 + data.length, needMore := false } := by
  have hlen : (encodeWriteMultipleRequest u fc addr qty data).length
      = data.length + 9 := by
    simp [encodeWriteMultipleRequest, withCRC]
    try omega
  have hu : (encodeWriteMultipleRequest u fc addr qty data).getD 0 0 = u := by
    simp [encodeWriteMultipleRequest, withCRC]
  have hf : (encodeWriteMultipleRequest u fc addr qty data).getD 1 0 = fc := by
    simp [encodeWriteMultipleRequest, withCRC]
  have hn : (encodeWriteMultipleRequest u fc addr qty data).getD 6 0
      = data.length := by
    simp [encodeWriteMultipleRequest, withCRC]
  have hcrc : be16 (encodeWriteMultipleRequest u fc addr qty data)
        (7 + data.length)
      = calcCRC16 (encodeWriteMultipleRequest u fc addr qty data)
        (7 + data.length) :=
    withCRC_crc_ok _ _ (by simp; omega)
  have haddr : be16 (encodeWriteMultipleRequest u fc addr qty data) 2 = addr := by
    simp [encodeWriteMultipleRequest, withCRC, be16]
    omega
  have hqty : be16 (encodeWriteMultipleRequest u fc addr qty data) 4 = qty := by
    simp [encodeWriteMultipleRequest, withCRC, be16]
    omega
  have hdata : ((encodeWriteMultipleRequest u fc addr qty data).drop 7).take
      data.length = data := by
    have hd7 : (encodeWriteMultipleRequest u fc addr qty data).drop 7
        = data ++ [calcCRC16
              ([u, fc, addr / 256, addr % 256, qty / 256, qty % 256, data.length]
                ++ data)
              ([u, fc, addr / 256, addr % 256, qty / 256, qty % 256, data.length]
                ++ data).length / 256,
            calcCRC16
              ([u, fc, addr / 256, addr % 256, qty / 256, qty % 256, data.length]
                ++ data)
              ([u, fc, addr / 256, addr % 256, qty / 256, qty % 256, data.length]
                ++ data).length % 256] := by
      simp [encodeWriteMultipleRequest, withCRC]
    rw [hd7, List.take_left' rfl]
  rcases hok with ⟨rfl, hd⟩ | ⟨rfl, hd⟩
  · have hdisp : decodeStep (encodeWriteMultipleRequest u 15 addr qty data)
        = stepWriteMultipleCoils u (encodeWriteMultipleRequest u 15 addr qty data) := by
      simp only [List.getD_eq_getElem?_getD] at hu hf
      unfold decodeStep decodeDispatch
      rw [if_pos (by omega)]
      simp [hu, hf]
    rw [hdisp, stepWriteMultipleCoils_accept u _ (by omega)
        (by rw [hn]; omega) (by rw [hn]; exact hcrc), haddr, hqty, hn, hdata]
  · have hdisp : decodeStep (encodeWriteMultipleRequest u 16 addr qty data)
        = stepWriteMultipleRegisters u
            (encodeWriteMultipleRequest u 16 addr qty data) := by
      simp only [List.getD_eq_getElem?_getD] at hu hf
      unfold decodeStep decodeDispatch
      rw [if_pos (by omega)]
      simp [hu, hf]
    rw [hdisp, stepWriteMultipleRegisters_accept u _ (by omega)
        (by rw [hn]; omega) (by rw [hn]; exact hcrc), haddr, hqty, hn, hdata]

/-- Decoding one iteration of an exactly built FC23 request (at least two
write data bytes). -/
theorem decodeStep_encodeReadWriteRequest (u raddr rqty waddr wqty : Nat)
    (data : List Nat) (hd : 2 ≤ data.length) :
    decodeStep (encodeReadWriteRequest u raddr rqty waddr wqty data)
      = { frame := some { unitIdentifier := u, functionCode := 23,
                          readAddress := raddr, readQuantity := rqty,
                          writeAddress := waddr, writeQuantity := wqty,
                          writeByteCount := data.length, writeData := data,
                          mtype := MsgType.request },
          consumed := 13 + data.length, needMore := false } := by
  have hlen : (encodeReadWriteRequest u raddr rqty waddr wqty data).length
      = data.length + 13 := by
    simp [encodeReadWriteRequest, withCRC]
    try omega
  have hu : (encodeReadWriteRequest u raddr rqty waddr wqty data).getD 0 0 = u := by
    simp [encodeReadWriteRequest, withCRC]
  have hf : (encodeReadWriteRequest u raddr rqty waddr wqty data).getD 1 0 = 23 := by
    simp [encodeReadWriteRequest, withCRC]
  have hn : (encodeReadWriteRequest u raddr rqty waddr wqty data).getD 10 0
      = data.length := by
    simp [encodeReadWriteRequest, withCRC]
  have hcrc : be16 (encodeReadWriteRequest u raddr rqty waddr wqty data)
        (11 + data.length)
      = calcCRC16 (encodeReadWriteRequest u raddr rqty waddr wqty data)
        (11 + data.length) :=
    withCRC_crc_ok _ _ (by simp; omega)
  have hra : be16 (encodeReadWriteRequest u raddr rqty waddr wqty data) 2 = raddr := by
    simp [encodeReadWriteRequest, withCRC, be16]
    omega
  have hrq : be16 (encodeReadWriteRequest u raddr rqty waddr wqty data) 4 = rqty := by
    simp [encodeReadWriteRequest, withCRC, be16]
    omega
  have hwa : be16 (encodeReadWriteRequest u raddr rqty waddr wqty data) 6 = waddr := by
    simp [encodeReadWriteRequest, withCRC, be16]
    omega
  have hwq : be16 (encodeReadWriteRequest u raddr rqty waddr wqty data) 8 = wqty := by
    simp [encodeReadWriteRequest, withCRC, be16]
    omega
  have hdata : ((encodeReadWriteRequest u raddr rqty waddr wqty data).drop 11).take
      data.length = data := by
    have h11 : (11 : Nat)
        = ([u, 23, raddr / 256, raddr % 256, rqty / 256, rqty % 256,
            waddr / 256, waddr % 256, wqty / 256, wqty % 256,
            data.length] : List Nat).length := by simp
    unfold encodeReadWriteRequest withCRC
    rw [List.append_assoc, h11, List.drop_left, List.take_left' rfl]
  have hdisp : decodeStep (encodeReadWriteRequest u raddr rqty waddr wqty data)
      = stepReadWriteMultiple u (encodeReadWriteRequest u raddr rqty waddr wqty data) := by
    simp only [List.getD_eq_getElem?_getD] at hu hf
    unfold decodeStep decodeDispatch
    rw [if_pos (by omega)]
    simp [hu, hf]
  rw [hdisp, stepReadWriteMultiple_accept u _ (by omega)
      (by rw [hn]; omega) (by rw [hn]; exact hcrc), hra, hrq, hwa, hwq, hn, hdata]

/-- Counterexample to round-trip framing at the catalog's FC15 minimum:
the correctly CRC'd 9-byte FC15 request with byte count 0 (layout
`9 + count` bytes) is not decoded at all — the decoder returns the whole
buffer unchanged with no frame, because the FC15 branch requires at
least 10 bytes before its request layout is attempted. -/
theorem fc15_count_zero_not_decoded :
    encodeWriteMultipleRequest 1 15 0 0 [] = [1, 15, 0, 0, 0, 0, 0, 11, 63]
    ∧ (encodeWriteMultipleRequest 1 15 0 0 []).length = 9
    ∧ be16 (encodeWriteMultipleRequest 1 15 0 0 []) 7
        = calcCRC16 (encodeWriteMultipleRequest 1 15 0 0 []) 7
    ∧ decodeModbus initState (encodeWriteMultipleRequest 1 15 0 0 [])
        = (initState, encodeWriteMultipleRequest 1 15 0 0 [], []) := by
  refine ⟨by decide, by decide, by decide, by decide⟩

/-- C1 (amended): round-trip framing — for every function code in the
catalog, a synthetically built, correctly CRC'd request frame fed as the
whole buffer decodes to exactly one Request frame whose unit id,
function code, address, quantity and data fields equal those encoded,
with an empty remainder, provided the data segment meets the code's
minimum lengths: at least 1 byte for FC15 (total ≥ 10) and at least
2 bytes for FC16 and FC23 (the 9-byte FC15 count-0 frame allowed by the
catalog is instead returned unconsumed, see
`fc15_count_zero_not_decoded`).  FC03/FC04 also record the pending
request; FC06 and FC16 also emit their CSV write call. -/
theorem roundTrip_framing (st : SnifferState)
    (u addr qty raddr rqty waddr wqty v1 v2 : Nat)
    (data1 data2 data3 : List Nat)
    (hst : st.trashdata = false)
    (hu : u < 256) (haddr : addr < 65536) (hqty : qty < 65536)
    (hv1 : v1 < 256) (hv2 : v2 < 256)
    (hraddr : raddr < 65536) (hrqty : rqty < 65536)
    (hwaddr : waddr < 65536) (hwqty : wqty < 65536)
    (hd1 : 1 ≤ data1.length) (hd1c : data1.length ≤ 255)
    (hd1b : ∀ b ∈ data1, b < 256)
    (hd2 : 2 ≤ data2.length) (hd2c : data2.length ≤ 255)
    (hd2b : ∀ b ∈ data2, b < 256)
    (hd3 : 2 ≤ data3.length) (hd3c : data3.length ≤ 255)
    (hd3b : ∀ b ∈ data3, b < 256) :
    decodeModbus st (encodeReadRequest u 1 addr qty)
      = (st, [],
         [Event.frame { unitIdentifier := u, functionCode := 1,
                        readAddress := addr, readQuantity := qty,
                        mtype := MsgType.request }])
    ∧ decodeModbus st (encodeReadRequest u 2 addr qty)
      = (st, [],
         [Event.frame { unitIdentifier := u, functionCode := 2,
                        readAddress := addr, readQuantity := qty,
                        mtype := MsgType.request }])
    ∧ decodeModbus st (encodeReadRequest u 3 addr qty)
      = ({ st with pendingRequests :=
            (pendingSet st.pendingRequests (u, 3) (addr, qty)) },
         [],
         [Event.frame { unitIdentifier := u, functionCode := 3,
                        readAddress := addr, readQuantity := qty,
                        mtype := MsgType.request }])
    ∧ decodeModbus st (encodeReadRequest u 4 addr qty)
      = ({ st with pendingRequests :=
            (pendingSet st.pendingRequests (u, 4) (addr, qty)) },
         [],
         [Event.frame { unitIdentifier := u, functionCode := 4,
                        readAddress := addr, readQuantity := qty,
                        mtype := MsgType.request }])
    ∧ decodeModbus st (encodeWriteSingleRequest u 5 addr v1 v2)
      = (st, [],
         [Event.frame { unitIdentifier := u, functionCode := 5,
                        writeAddress := addr, writeData := [v1, v2],
                        mtype := MsgType.request }])
    ∧ decodeModbus st (encodeWriteSingleRequest u 6 addr v1 v2)
      = (st, [],
         [Event.frame { unitIdentifier := u, functionCode := 6,
                        writeAddress := addr, writeData := [v1, v2],
                        mtype := MsgType.request },
          Event.csvWrite u "WRITE" addr 1 [v1 * 256 + v2]])
    ∧ decodeModbus st (encodeWriteMultipleRequest u 15 addr qty data1)
      = (st, [],
         [Event.frame { unitIdentifier := u, functionCode := 15,
                        writeAddress := addr, writeQuantity := qty,
                        writeByteCount := data1.length, writeData := data1,
                        mtype := MsgType.request }])
    ∧ decodeModbus st (encodeWriteMultipleRequest u 16 addr qty data2)
      = (st, [],
         [Event.frame { unitIdentifier := u, functionCode := 16,
                        writeAddress := addr, writeQuantity := qty,
                        writeByteCount := data2.length, writeData := data2,
                        mtype := MsgType.request },
          Event.csvWrite u "WRITE" addr qty (registerValuesOf data2)])
    ∧ decodeModbus st (encodeReadWriteRequest u raddr rqty waddr wqty data3)
      = (st, [],
         [Event.frame { unitIdentifier := u, functionCode := 23,
                        readAddress := raddr, readQuantity := rqty,
                        writeAddress := waddr, writeQuantity := wqty,
                        writeByteCount := data3.length, writeData := data3,
                        mtype := MsgType.request }]) := by
  refine ⟨?_, ?_, ?_, ?_, ?_, ?_, ?_, ?_, ?_⟩
  · have hstep := decodeStep_encodeReadRequest u 1 addr qty (by simp)
    unfold decodeModbus
    rw [decodeLoop_accept st _ _ _ (by rw [hstep])
        (by rw [hstep]; simp [encodeReadRequest, withCRC])]
    simp [flushTrash, hst, frameEffects]
  · have hstep := decodeStep_encodeReadRequest u 2 addr qty (by simp)
    unfold decodeModbus
    rw [decodeLoop_accept st _ _ _ (by rw [hstep])
        (by rw [hstep]; simp [encodeReadRequest, withCRC])]
    simp [flushTrash, hst, frameEffects]
  · exact decodeModbus_readRequest st u 3 addr qty hst (by simp)
  · exact decodeModbus_readRequest st u 4 addr qty hst (by simp)
  · have hstep := decodeStep_encodeWriteSingleRequest u 5 addr v1 v2 (by simp)
    unfold decodeModbus
    rw [decodeLoop_accept st _ _ _ (by rw [hstep])
        (by rw [hstep]; simp [encodeWriteSingleRequest, withCRC])]
    simp [flushTrash, hst, frameEffects]
  · have hstep := decodeStep_encodeWriteSingleRequest u 6 addr v1 v2 (by simp)
    unfold decodeModbus
    rw [decodeLoop_accept st _ _ _ (by rw [hstep])
        (by rw [hstep]; simp [encodeWriteSingleRequest, withCRC])]
    simp [flushTrash, hst, frameEffects, intFromBytesBE]
  · have hstep := decodeStep_encodeWriteMultipleRequest u 15 addr qty data1
      (Or.inl ⟨rfl, hd1⟩)
    unfold decodeModbus
    rw [decodeLoop_accept st _ _ _ (by rw [hstep])
        (by rw [hstep]; simp [encodeWriteMultipleRequest, withCRC]; try omega)]
    simp [flushTrash, hst, frameEffects]
  · have hstep := decodeStep_encodeWriteMultipleRequest u 16 addr qty data2
      (Or.inr ⟨rfl, hd2⟩)
    unfold decodeModbus
    rw [decodeLoop_accept st _ _ _ (by rw [hstep])
        (by rw [hstep]; simp [encodeWriteMultipleRequest, withCRC]; try omega)]
    simp [flushTrash, hst, frameEffects]
  · have hstep := decodeStep_encodeReadWriteRequest u raddr rqty waddr wqty data3 hd3
    unfold decodeModbus
    rw [decodeLoop_accept st _ _ _ (by rw [hstep])
        (by rw [hstep]; simp [encodeReadWriteRequest, withCRC]; try omega)]
    simp [flushTrash, hst, frameEffects]

/-- Witness: `roundTrip_framing` at unit 1, address 100, quantity 2,
value bytes `[0, 5]`, coil data `[1]`, register data `[0, 5, 0, 6]` and
FC23 parameters `10/1/20/1` with write data `[0, 7, 0, 8]`. -/
theorem roundTrip_framing_witness :
    decodeModbus initState (encodeReadRequest 1 1 100 2)
      = (initState, [],
         [Event.frame { unitIdentifier := 1, functionCode := 1,
                        readAddress := 100, readQuantity := 2,
                        mtype := MsgType.request }])
    ∧ decodeModbus initState (encodeReadRequest 1 2 100 2)
      = (initState, [],
         [Event.frame { unitIdentifier := 1, functionCode := 2,
                        readAddress := 100, readQuantity := 2,
                        mtype := MsgType.request }])
    ∧ decodeModbus initState (encodeReadRequest 1 3 100 2)
      = ({ initState with pendingRequests :=
            (pendingSet initState.pendingRequests (1, 3) (100, 2)) },
         [],
         [Event.frame { unitIdentifier := 1, functionCode := 3,
                        readAddress := 100, readQuantity := 2,
                        mtype := MsgType.request }])
    ∧ decodeModbus initState (encodeReadRequest 1 4 100 2)
      = ({ initState with pendingRequests :=
            (pendingSet initState.pendingRequests (1, 4) (100, 2)) },
         [],
         [Event.frame { unitIdentifier := 1, functionCode := 4,
                        readAddress := 100, readQuantity := 2,
                        mtype := MsgType.request }])
    ∧ decodeModbus initState (encodeWriteSingleRequest 1 5 100 0 5)
      = (initState, [],
         [Event.frame { unitIdentifier := 1, functionCode := 5,
                        writeAddress := 100, writeData := [0, 5],
                        mtype := MsgType.request }])
    ∧ decodeModbus initState (encodeWriteSingleRequest 1 6 100 0 5)
      = (initState, [],
         [Event.frame { unitIdentifier := 1, functionCode := 6,
                        writeAddress := 100, writeData := [0, 5],
                        mtype := MsgType.request },
          Event.csvWrite 1 "WRITE" 100 1 [0 * 256 + 5]])
    ∧ decodeModbus initState (encodeWriteMultipleRequest 1 15 100 2 [1])
      = (initState, [],
         [Event.frame { unitIdentifier := 1, functionCode := 15,
                        writeAddress := 100, writeQuantity := 2,
                        writeByteCount := ([1] : List Nat).length,
                        writeData := [1],
                        mtype := MsgType.request }])
    ∧ decodeModbus initState (encodeWriteMultipleRequest 1 16 100 2 [0, 5, 0, 6])
      = (initState, [],
         [Event.frame { unitIdentifier := 1, functionCode := 16,
                        writeAddress := 100, writeQuantity := 2,
                        writeByteCount := ([0, 5, 0, 6] : List Nat).length,
                        writeData := [0, 5, 0, 6],
                        mtype := MsgType.request },
          Event.csvWrite 1 "WRITE" 100 2 (registerValuesOf [0, 5, 0, 6])])
    ∧ decodeModbus initState (encodeReadWriteRequest 1 10 1 20 1 [0, 7, 0, 8])
      = (initState, [],
         [Event.frame { unitIdentifier := 1, functionCode := 23,
                        readAddress := 10, readQuantity := 1,
                        writeAddress := 20, writeQuantity := 1,
                        writeByteCount := ([0, 7, 0, 8] : List Nat).length,
                        writeData := [0, 7, 0, 8],
                        mtype := MsgType.request }]) :=
  roundTrip_framing initState 1 100 2 10 1 20 1 0 5 [1] [0, 5, 0, 6] [0, 7, 0, 8]
    (by decide) (by decide) (by decide) (by decide) (by decide) (by decide)
    (by decide) (by decide) (by decide) (by decide) (by decide) (by decide)
    (by decide) (by decide) (by decide) (by decide) (by decide) (by decide)
    (by decide)

/-! ### Tabular logger: schema stability and rotation -/

theorem length_foldl_set {β : Type} (g : List String → β → List String)
    (hg : ∀ acc i, (g acc i).length = acc.length) :
    ∀ (l : List β) (acc : List String), (l.foldl g acc).length = acc.length := by
  intro l
  induction l with
  | nil => intro acc; rfl
  | cons b rest ih => intro acc; rw [List.foldl_cons, ih, hg]

/-- A remapped row has exactly one cell per new column. -/
theorem remapRow_length (oldH newC row : List String) :
    (remapRow oldH newC row).length = newC.length := by
  unfold remapRow
  rw [length_foldl_set _ ?hg, List.length_replicate]
  intro acc i
  dsimp only
  split_ifs <;> simp [List.length_set]

theorem rewriteFileWithNewHeader_spec (st : CSVLogger) :
    (rewriteFileWithNewHeader st).columns = st.columns
    ∧ (rewriteFileWithNewHeader st).enableCsv = st.enableCsv
    ∧ (rewriteFileWithNewHeader st).fileRows.headD [] = st.columns
    ∧ ∀ r ∈ (rewriteFileWithNewHeader st).fileRows,
        r.length = st.columns.length := by
  refine ⟨rfl, rfl, rfl, ?_⟩
  intro r hr
  simp only [rewriteFileWithNewHeader, List.mem_cons] at hr
  rcases hr with rfl | hr
  · rfl
  · obtain ⟨row, _, rfl⟩ := List.mem_map.mp hr
    exact remapRow_length _ _ _

theorem expandOne_spec (sl : Nat) (acc : CSVLogger × Bool) (r : Nat) :
    ∃ tail, (expandOne sl acc r).1.columns = acc.1.columns ++ tail
    ∧ (expandOne sl acc r).1.fileRows = acc.1.fileRows
    ∧ (expandOne sl acc r).1.enableCsv = acc.1.enableCsv
    ∧ ((expandOne sl acc r).2 = false →
        (expandOne sl acc r).1.columns = acc.1.columns ∧ acc.2 = false) := by
  simp only [expandOne]
  split_ifs with h
  · exact ⟨[], by simp, rfl, rfl, fun hb => ⟨rfl, hb⟩⟩
  · refine ⟨["Reg_" ++ toString sl ++ "_" ++ toString r], rfl, rfl, rfl, ?_⟩
    intro hfalse
    exact absurd hfalse (by simp)

theorem expandFold_spec (sl start : Nat) : ∀ (offs : List Nat) (acc : CSVLogger × Bool),
    ∃ tail,
      (offs.foldl (fun a o => expandOne sl a (start + o)) acc).1.columns
          = acc.1.columns ++ tail
      ∧ (offs.foldl (fun a o => expandOne sl a (start + o)) acc).1.fileRows
          = acc.1.fileRows
      ∧ (offs.foldl (fun a o => expandOne sl a (start + o)) acc).1.enableCsv
          = acc.1.enableCsv
      ∧ ((offs.foldl (fun a o => expandOne sl a (start + o)) acc).2 = false →
          (offs.foldl (fun a o => expandOne sl a (start + o)) acc).1.columns
            = acc.1.columns ∧ acc.2 = false) := by
  intro offs
  induction offs with
  | nil => intro acc; exact ⟨[], by simp, rfl, rfl, fun hb => ⟨rfl, hb⟩⟩
  | cons o rest ih =>
    intro acc
    obtain ⟨t1, hc1, hf1, he1, hb1⟩ := expandOne_spec sl acc (start + o)
    obtain ⟨t2, hc2, hf2, he2, hb2⟩ := ih (expandOne sl acc (start + o))
    refine ⟨t1 ++ t2, ?_, ?_, ?_, ?_⟩
    · rw [List.foldl_cons, hc2, hc1, List.append_assoc]
    · rw [List.foldl_cons, hf2, hf1]
    · rw [List.foldl_cons, he2, he1]
    · intro hb
      rw [List.foldl_cons] at hb
      obtain ⟨hcols2, hflag1⟩ := hb2 hb
      obtain ⟨hcols1, hflag0⟩ := hb1 hflag1
      exact ⟨by rw [List.foldl_cons, hcols2, hcols1], hflag0⟩

theorem expandHeader_spec (st : CSVLogger) (sl start qty : Nat) :
    ∃ tail, (expandHeaderForRegisters st sl start qty).columns = st.columns ++ tail
    ∧ (expandHeaderForRegisters st sl start qty).enableCsv = st.enableCsv
    ∧ (((expandHeaderForRegisters st sl start qty).fileRows = st.fileRows
        ∧ (expandHeaderForRegisters st sl start qty).columns = st.columns)
       ∨ ((expandHeaderForRegisters st sl start qty).fileRows ≠ []
          ∧ (expandHeaderForRegisters st sl start qty).fileRows.headD []
              = (expandHeaderForRegisters st sl start qty).columns
          ∧ ∀ r ∈ (expandHeaderForRegisters st sl start qty).fileRows,
              r.length = (expandHeaderForRegisters st sl start qty).columns.length)) := by
  obtain ⟨tail, hc, hf, he, hb⟩ := expandFold_spec sl start (List.range qty) (st, false)
  simp only [expandHeaderForRegisters]
  rcases hflag : (List.foldl (fun a o => expandOne sl a (start + o))
      (st, false) (List.range qty)).2 with _ | _
  · simp only [Bool.false_eq_true, if_false]
    obtain ⟨hcols, _⟩ := hb hflag
    exact ⟨[], by rw [hcols]; simp, he, Or.inl ⟨hf, hcols⟩⟩
  · rw [if_pos rfl]
    obtain ⟨hc', he', hh', hr'⟩ := rewriteFileWithNewHeader_spec
      (List.foldl (fun a o => expandOne sl a (start + o)) (st, false) (List.range qty)).1
    refine ⟨tail, by rw [hc', hc], by rw [he', he], Or.inr ⟨?_, ?_, ?_⟩⟩
    · simp [rewriteFileWithNewHeader]
    · rw [hh', hc']
    · intro r hr
      rw [hc']
      exact hr' r hr

theorem checkDailyRotation_spec (st : CSVLogger) (date : String) :
    (checkDailyRotation st date).columns = st.columns
    ∧ (checkDailyRotation st date).enableCsv = st.enableCsv
    ∧ ((checkDailyRotation st date).fileRows = st.fileRows
       ∨ (checkDailyRotation st date).fileRows = [st.columns]) := by
  unfold checkDailyRotation openCsvFile
  split_ifs <;> simp

theorem headD_append_left (l r : List (List String)) (x : List String) (h : l ≠ []) :
    (l ++ r).headD x = l.headD x := by
  cases l with
  | nil => exact absurd rfl h
  | cons a t => rfl

/-- One `log_data` call preserves the consistency invariant and only
appends columns. -/
theorem log_data_inv (st : CSVLogger) (date ts : String) (sl : Nat)
    (op : String) (start qty : Nat) (vals : List Nat) (h : CSVInv st) :
    CSVInv (log_data st date ts sl op start qty vals)
    ∧ ∃ tail, (log_data st date ts sl op start qty vals).columns
        = st.columns ++ tail := by
  obtain ⟨hfix, hlen3, hfile⟩ := h
  by_cases he : st.enableCsv = false
  · unfold log_data
    rw [if_pos he]
    exact ⟨⟨hfix, hlen3, hfile⟩, [], by simp⟩
  · have he' : st.enableCsv = true := by
      revert he
      cases st.enableCsv <;> simp
    unfold log_data
    rw [if_neg he]
    obtain ⟨hc1, he1, hf1⟩ := checkDailyRotation_spec st date
    obtain ⟨tail, hc2, he2, hcase⟩ :=
      expandHeader_spec (checkDailyRotation st date) sl start qty
    constructor
    · refine ⟨?_, ?_, ?_⟩
      · rw [hc2, hc1, List.take_append_of_le_length hlen3, hfix]
      · rw [hc2, hc1]
        simp only [List.length_append]
        omega
      · intro _
        have hrowlen : ∀ base : List String,
            (vals.enum.foldl (fun acc iv =>
              match (expandHeaderForRegisters (checkDailyRotation st date) sl
                  start qty).registerMap.find? (fun e => e.1 == (sl, start + iv.1)) with
              | some e => acc.set e.2 (toString iv.2)
              | none => acc) base).length = base.length := by
          intro base
          refine length_foldl_set _ ?_ _ _
          intro acc iv
          rcases hfind : (expandHeaderForRegisters (checkDailyRotation st date) sl
              start qty).registerMap.find? (fun e => e.1 == (sl, start + iv.1)) with
            _ | e
          · simp [hfind]
          · simp [hfind, List.length_set]
        refine ⟨by simp, ?_, ?_⟩
        · rw [headD_append_left]
          · rcases hcase with ⟨hfr, hcols⟩ | ⟨_, hh, _⟩
            · rw [hfr]
              rcases hf1 with hf1 | hf1
              · rw [hf1, hcols, hc1]
                exact (hfile he').2.1
              · rw [hf1, hcols, hc1]
                rfl
            · exact hh
          · rcases hcase with ⟨hfr, _⟩ | ⟨hne, _, _⟩
            · rw [hfr]
              rcases hf1 with hf1 | hf1
              · rw [hf1]
                exact (hfile he').1
              · rw [hf1]
                simp
            · exact hne
        · intro r hr
          rw [List.mem_append] at hr
          rcases hr with hr | hr
          · rcases hcase with ⟨hfr, hcols⟩ | ⟨_, _, hlen⟩
            · rw [hfr] at hr
              rw [hcols, hc1]
              rcases hf1 with hf1 | hf1
              · rw [hf1] at hr
                exact (hfile he').2.2 r hr
              · rw [hf1] at hr
                simp at hr
                rw [hr]
               
            · exact hlen r hr
          · simp at hr
            rw [hr, hrowlen]
            simp [List.length_set]
    · refine ⟨tail, ?_⟩
      show (expandHeaderForRegisters (checkDailyRotation st date) sl start qty).columns
        = st.columns ++ tail
      rw [hc2, hc1]

/-- A freshly initialised logger satisfies the invariant. -/
theorem CSVInv_init (e d : Bool) (date0 : String) :
    CSVInv (CSVLogger.init e d date0) := by
  cases e <;> simp [CSVInv, CSVLogger.init, openCsvFile, fixedColumns]

/-- The invariant holds after any sequence of calls. -/
theorem runLog_inv (e d : Bool) (date0 : String) (calls : List LogCall) :
    CSVInv (runLog e d date0 calls) := by
  unfold runLog
  have : ∀ (cs : List LogCall) (st : CSVLogger), CSVInv st →
      CSVInv (cs.foldl applyLogCall st) := by
    intro cs
    induction cs with
    | nil => intro st h; exact h
    | cons c rest ih =>
      intro st h
      rw [List.foldl_cons]
      exact ih _ (log_data_inv st c.date c.timestamp c.slaveId c.operation
        c.startRegister c.quantity c.registerValues h).1
  exact this calls _ (CSVInv_init e d date0)

/-- C7: table schema stability and row alignment — across every sequence
of `log_data` calls on one logger, the first three columns stay
`Timestamp, Slave ID, Operation`; a further call only appends columns
(the previous column list is a prefix of the new one, so columns are
never removed or reordered); and, whenever CSV logging is enabled, the
file's first line is the current header and every row on disk has
exactly one cell per current header column (column growth rewrites the
whole file through `rewriteFileWithNewHeader`, remapping previous rows
onto the expanded schema). -/
theorem table_schema_stability (e d : Bool) (date0 : String)
    (calls : List LogCall) (c : LogCall) :
    (runLog e d date0 calls).columns.take 3 = fixedColumns
    ∧ (∃ tail, (applyLogCall (runLog e d date0 calls) c).columns
        = (runLog e d date0 calls).columns ++ tail)
    ∧ ((runLog e d date0 calls).enableCsv = true →
        (runLog e d date0 calls).fileRows ≠ []
        ∧ (runLog e d date0 calls).fileRows.headD []
            = (runLog e d date0 calls).columns
        ∧ ∀ r ∈ (runLog e d date0 calls).fileRows,
            r.length = (runLog e d date0 calls).columns.length) := by
  obtain ⟨h1, h2, h3⟩ := runLog_inv e d date0 calls
  refine ⟨h1, ?_, h3⟩
  exact (log_data_inv (runLog e d date0 calls) c.date c.timestamp c.slaveId
    c.operation c.startRegister c.quantity c.registerValues
    ⟨h1, h2, h3⟩).2

/-! ### Daily rotation -/

/-- Counterexample to the claim that rotation writes a header containing
only the three fixed columns: after one logged register has grown the
schema to four columns, a rotation on a new day opens a file whose first
line carries all four columns. -/
theorem rotation_header_counterexample :
    (log_data (CSVLogger.init true true "d1") "d1" "t1" 1 "READ" 100 1 [5]).dailyFile
        = true
    ∧ "d2" ≠ (log_data (CSVLogger.init true true "d1") "d1" "t1" 1 "READ"
        100 1 [5]).currentDateStr
    ∧ (checkDailyRotation
          (log_data (CSVLogger.init true true "d1") "d1" "t1" 1 "READ" 100 1 [5])
          "d2").fileRows
        = [["Timestamp", "Slave ID", "Operation", "Reg_1_100"]] := by
  refine ⟨by decide, by decide, by decide⟩

/-- C8 (amended): when a `log_data` call's rotation check detects a new
calendar day, it opens a new file whose single written line is the
current header — the current column list, i.e. the three fixed columns
plus every register column added so far; this header equals exactly the
three fixed columns only while no register columns have been added. -/
theorem daily_rotation_fresh_file (st : CSVLogger) (date : String)
    (hdaily : st.dailyFile = true) (hchg : date ≠ st.currentDateStr) :
    checkDailyRotation st date = openCsvFile st date
    ∧ (openCsvFile st date).fileRows = [st.columns]
    ∧ (openCsvFile st date).columns = st.columns
    ∧ (openCsvFile st date).currentDateStr = date := by
  refine ⟨?_, rfl, rfl, ?_⟩
  · unfold checkDailyRotation
    rw [if_pos hdaily, if_pos hchg]
  · unfold openCsvFile
    rw [if_pos hdaily]

/-- Witness: `daily_rotation_fresh_file` at the four-column state of
`rotation_header_counterexample`. -/
theorem daily_rotation_fresh_file_witness :
    checkDailyRotation
        (log_data (CSVLogger.init true true "d1") "d1" "t1" 1 "READ" 100 1 [5]) "d2"
      = openCsvFile
          (log_data (CSVLogger.init true true "d1") "d1" "t1" 1 "READ" 100 1 [5]) "d2"
    ∧ (openCsvFile
          (log_data (CSVLogger.init true true "d1") "d1" "t1" 1 "READ" 100 1 [5])
          "d2").fileRows
      = [(log_data (CSVLogger.init true true "d1") "d1" "t1" 1 "READ"
          100 1 [5]).columns]
    ∧ (openCsvFile
          (log_data (CSVLogger.init true true "d1") "d1" "t1" 1 "READ" 100 1 [5])
          "d2").columns
      = (log_data (CSVLogger.init true true "d1") "d1" "t1" 1 "READ"
          100 1 [5]).columns
    ∧ (openCsvFile
          (log_data (CSVLogger.init true true "d1") "d1" "t1" 1 "READ" 100 1 [5])
          "d2").currentDateStr = "d2" :=
  daily_rotation_fresh_file
    (log_data (CSVLogger.init true true "d1") "d1" "t1" 1 "READ" 100 1 [5]) "d2"
    (by decide) (by decide)

end ModbusSniffer
